import Mathlib

/-!
The tool `hackrf_rffc5071`: reading and writing the registers of the RFFC5071.

A shallow embedding of `host/hackrf-tools/src/hackrf_rffc5071.c`.

* C strings are lists of characters (the bytes before the terminating NUL).
* A pointer into a string is the suffix it points at; two pointers into the
  same string are equal exactly when the suffixes have the same length.
* `uint16_t` and `uint8_t` values are natural numbers reduced `% 65536` and
  `% 256` at every conversion; `int` and `long` are integers.
* The libhackrf driver is a record of functions (`Driver`); every call into it
  and every line printed is recorded, in order, in a trace of `Event`s.
-/

namespace Rffc5071

/-! ## Constants of `hackrf.h` and `stdlib.h` -/

/-- Modelled from the spec: `enum hackrf_error` of `hackrf.h` is not among the
sources. `HACKRF_SUCCESS` is its zero member: `main` tests the same results
both with `result == HACKRF_SUCCESS` and with `if( result )`. -/
def HACKRF_SUCCESS : Int := 0

/-- Modelled from the spec: `enum hackrf_error` of `hackrf.h` is not among the
sources. `HACKRF_ERROR_INVALID_PARAM` is the "invalid-parameter condition", a
nonzero (negative) member of the enumeration. -/
def HACKRF_ERROR_INVALID_PARAM : Int := -2

/-- The value of `EXIT_SUCCESS` in `stdlib.h`. -/
def EXIT_SUCCESS : Int := 0

/-- The value of `EXIT_FAILURE` in `stdlib.h`. -/
def EXIT_FAILURE : Int := 1

/-! ## `strtol` (ISO C99 7.20.1.4, "C" locale, explicit base 2..36) -/

/-- The C function `isspace` in the "C" locale: space, `\t`, `\n`, `\v`, `\f`, `\r`. -/
def isspace (c : Char) : Bool :=
  c.toNat = 32 || (9 ≤ c.toNat && c.toNat ≤ 13)

/-- Value of a character as a digit: `0`-`9`, then letters of either case
from 10 (`a`/`A`) to 35 (`z`/`Z`). -/
def digit_value (c : Char) : Option Nat :=
  if 48 ≤ c.toNat ∧ c.toNat ≤ 57 then some (c.toNat - 48)
  else if 97 ≤ c.toNat ∧ c.toNat ≤ 122 then some (c.toNat - 87)
  else if 65 ≤ c.toNat ∧ c.toNat ≤ 90 then some (c.toNat - 55)
  else none

/-- Whether `c` is a digit of the given base. -/
def is_digit_of (base : Nat) (c : Char) : Bool :=
  match digit_value c with
  | some v => decide (v < base)
  | none => false

/-- The digit loop of `strtol`: consumes digits of `base` while there are any,
accumulating their value; returns the value and the unconsumed rest. -/
def scan_digits (base : Nat) : List Char → Nat → Nat × List Char
  | [], acc => (acc, [])
  | c :: cs, acc =>
    match digit_value c with
    | some v => if v < base then scan_digits base cs (acc * base + v) else (acc, c :: cs)
    | none => (acc, c :: cs)

/-- The optional sign of the subject sequence: whether it is `-`, and the rest. -/
def strtol_sign : List Char → Bool × List Char
  | '-' :: t => (true, t)
  | '+' :: t => (false, t)
  | s => (false, s)

/-- In base 16 the digits may be preceded by `0x` or `0X`; the two characters
are skipped only when a hexadecimal digit follows them (otherwise the subject
sequence is the `0` alone). -/
def strtol_skip_0x (base : Nat) : List Char → List Char
  | '0' :: x :: h :: t =>
    if base = 16 ∧ (x = 'x' ∨ x = 'X') ∧ is_digit_of 16 h then h :: t else '0' :: x :: h :: t
  | s => s

/-- The C function `strtol(nptr, &endptr, base)` for a `long` whose largest
value is `LONG_MAX` (and smallest `-LONG_MAX - 1`): skips white space, reads
an optional sign, (base 16) an optional `0x`, and the longest run of digits;
the value is clamped to the range of `long`. Returns the value and `endptr`;
when no digit is found the value is 0 and `endptr` is `nptr`. -/
def strtol (LONG_MAX : Nat) (nptr : List Char) (base : Nat) : Int × List Char :=
  let s1 := nptr.dropWhile isspace
  let (negative, s2) := strtol_sign s1
  let s3 := strtol_skip_0x base s2
  let (acc, rest) := scan_digits base s3 0
  if rest.length = s3.length then (0, nptr)
  else if negative then
    (if acc > LONG_MAX + 1 then -((LONG_MAX : Int) + 1) else -(acc : Int), rest)
  else
    (if acc > LONG_MAX then (LONG_MAX : Int) else (acc : Int), rest)

/-! ## `parse_int` -/

/-- The selection of the base in `parse_int`: the tokens longer than two
characters that start `0x`/`0X` are base 16 and those that start `0b`/`0B`
base 2, with `s` advanced past the two characters; everything else is base 10. -/
def parse_int_base (s : List Char) : Nat × List Char :=
  if s.length > 2 then
    match s with
    | '0' :: c :: t =>
      if c = 'x' ∨ c = 'X' then (16, t)
      else if c = 'b' ∨ c = 'B' then (2, t)
      else (10, s)
    | _ => (10, s)
  else (10, s)

/-- The function `parse_int(s, value)`: returns the `int` result and the
content of `*value` afterwards (`value` is its content before the call, left
untouched on failure). -/
def parse_int (LONG_MAX : Nat) (s : List Char) (value : Nat) : Int × Nat :=
  let (base, s) := parse_int_base s
  let (long_value, s_end) := strtol LONG_MAX s base
  if s.length ≠ s_end.length ∧ s_end.head? = none then
    (HACKRF_SUCCESS, (long_value % 65536).toNat)
  else
    (HACKRF_ERROR_INVALID_PARAM, value)

/-! ## `getopt_long` (glibc), for the option table of this program

The state kept between calls is the unscanned part of the current cluster of
short options (`nextchar`) and the elements of `argv` from `optind` on. The
diagnostics that `getopt_long` itself writes to standard error are not part of
the trace. -/

/-- The `has_arg` value `no_argument` of `getopt.h`. -/
def no_argument : Nat := 0

/-- The `has_arg` value `required_argument` of `getopt.h`. -/
def required_argument : Nat := 1

/-- One entry of the table of long options; the `flag` member is 0 in every
entry of `long_options`, so `getopt_long` returns `val` for a match. -/
structure struct_option where
  name : List Char
  has_arg : Nat
  val : Char
deriving DecidableEq, Repr

/-- The table `long_options` of the source (without its terminating entry). -/
def long_options : List struct_option :=
  [ ⟨"register".toList, required_argument, 'n'⟩,
    ⟨"write".toList, required_argument, 'w'⟩,
    ⟨"read".toList, no_argument, 'r'⟩,
    ⟨"device".toList, no_argument, 'd'⟩,
    ⟨"help".toList, no_argument, 'h'⟩ ]

/-- The string of short options handed to `getopt_long` by `main`. -/
def optstring : List Char := "n:rw:d:h?".toList

/-- State of the scan between two calls of `getopt_long`. -/
structure getopt_data where
  nextchar : List Char
  argv : List (List Char)
deriving DecidableEq, Repr

/-- The test `NONOPTION_P`: the element does not start with `-`, or is `-` alone. -/
def NONOPTION_P : List Char → Bool
  | '-' :: _ :: _ => false
  | _ => true

/-- The lookup `strchr(optstring, c)` followed by the test `temp[1] == ':'`:
`none` when `c` is not in the string, otherwise whether a colon follows it. -/
def find_short (c : Char) : List Char → Option Bool
  | [] => none
  | o :: rest => if o = c then some (rest.head? = some ':') else find_short c rest

/-- Handling of one short option character `c`; `nextchar` is the rest of the
cluster and `argv` the elements after the cluster. The result is the value
returned with `optarg`, and the state for the next call. -/
def short_option (c : Char) (nextchar : List Char) (argv : List (List Char)) :
    (Char × Option (List Char)) × getopt_data :=
  match (if c = ':' ∨ c = ';' then none else find_short c optstring) with
  | none => (('?', none), ⟨nextchar, argv⟩)
  | some false => ((c, none), ⟨nextchar, argv⟩)
  | some true =>
    match nextchar, argv with
    | _ :: _, _ => ((c, some nextchar), ⟨[], argv⟩)
    | [], [] => (('?', none), ⟨[], []⟩)
    | [], a :: rest => ((c, some a), ⟨[], rest⟩)

/-- The search of `process_long_option`: the first entry whose name is
`name` exactly; otherwise the first entry that `name` abbreviates, unless a
later entry that it abbreviates too differs in `has_arg` or `val`
(ambiguous, inner `none`); outer `none` when no entry matches. -/
def find_long (name : List Char) : Option (Option struct_option) :=
  match long_options.find? (fun p => p.name = name) with
  | some p => some (some p)
  | none =>
    match long_options.filter (fun p => p.name.take name.length = name) with
    | [] => none
    | pfound :: more =>
      if more.any (fun p => p.has_arg ≠ pfound.has_arg ∨ p.val ≠ pfound.val) then some none
      else some (some pfound)

/-- The function `process_long_option` on the text after `--`; `argv` are the
elements after this one. -/
def process_long_option (text : List Char) (argv : List (List Char)) :
    (Char × Option (List Char)) × getopt_data :=
  let name := text.takeWhile (fun c => c ≠ '=')
  let nameend := text.dropWhile (fun c => c ≠ '=')
  match find_long name with
  | none => (('?', none), ⟨[], argv⟩)
  | some none => (('?', none), ⟨[], argv⟩)
  | some (some pfound) =>
    match nameend with
    | _ :: arg =>
      if pfound.has_arg ≠ 0 then ((pfound.val, some arg), ⟨[], argv⟩)
      else (('?', none), ⟨[], argv⟩)
    | [] =>
      if pfound.has_arg = 1 then
        match argv with
        | a :: rest => ((pfound.val, some a), ⟨[], rest⟩)
        | [] => (('?', none), ⟨[], []⟩)
      else ((pfound.val, none), ⟨[], argv⟩)

/-- One call `getopt_long(argc, argv, "n:rw:d:h?", long_options, &option_index)`.
Returns `none` for `EOF`, otherwise the option character with `optarg` (`none`
is the null pointer), and the state for the next call. Without
`POSIXLY_CORRECT` in the environment the elements that are not options are
passed over (permuted to the end); with it the scan stops at the first one. -/
def getopt_long (posixly_correct : Bool) (d : getopt_data) :
    Option (Char × Option (List Char)) × getopt_data :=
  match d.nextchar with
  | c :: cs =>
    let (r, d) := short_option c cs d.argv
    (some r, d)
  | [] =>
    match (if posixly_correct then d.argv else d.argv.dropWhile NONOPTION_P) with
    | [] => (none, ⟨[], []⟩)
    | a :: rest =>
      if a = ['-', '-'] then (none, ⟨[], []⟩)
      else
        match a with
        | '-' :: '-' :: text =>
          let (r, d) := process_long_option text rest
          (some r, d)
        | '-' :: c :: cs =>
          let (r, d) := short_option c cs rest
          (some r, d)
        | _ => (none, ⟨[], a :: rest⟩)

/-! ## The driver library and the trace -/

/-- The functions of libhackrf called by the program, as results of the
calls: `hackrf_rffc5071_read` gives the result and the value stored through
its last argument. The device handle is the one opened by `main`. -/
structure Driver where
  hackrf_init : Int
  hackrf_open_by_serial : Option (List Char) → Int
  hackrf_rffc5071_read : Nat → Int × Nat
  hackrf_rffc5071_write : Nat → Nat → Int
  hackrf_close : Int
  hackrf_error_name : Int → String

/-- What the program does that can be observed: calls of the driver with
their arguments, and text written to standard output and standard error. -/
inductive Event where
  | hackrf_init
  | hackrf_open_by_serial (serial_number : Option (List Char))
  | hackrf_rffc5071_read (register_number : Nat)
  | hackrf_rffc5071_write (register_number : Nat) (value : Nat)
  | hackrf_close
  | hackrf_exit
  | stdout (text : String)
  | stderr (text : String)
deriving DecidableEq, Repr

/-- How `main` ends: it returns a status, or it passes a null `optarg` to
`parse_int` (undefined behaviour), or the bound of the model on the number of
`getopt_long` calls is reached (`main_returns` shows that `main` always returns). -/
inductive Outcome where
  | exit (status : Int) (trace : List Event)
  | null_optarg (trace : List Event)
  | unfinished
deriving DecidableEq, Repr

/-! ## `printf` conversions -/

/-- Pads the digits on the left with `fill` up to `width`. -/
def pad_left (width : Nat) (fill : Char) (digits : List Char) : List Char :=
  List.replicate (width - digits.length) fill ++ digits

/-- The conversion `%d` of an `int`. -/
def fmt_d (n : Int) : String :=
  String.mk (if n < 0 then '-' :: Nat.toDigits 10 n.natAbs else Nat.toDigits 10 n.natAbs)

/-- The conversion `%2d` of a `uint16_t`. -/
def fmt_2d (n : Nat) : String :=
  String.mk (pad_left 2 ' ' (Nat.toDigits 10 n))

/-- The conversion `%03x` of a `uint16_t`. -/
def fmt_03x (n : Nat) : String :=
  String.mk (pad_left 3 '0' (Nat.toDigits 16 n))

/-- The text `NAME (CODE)` that ends every error line. -/
def fmt_error (lib : Driver) (result : Int) : String :=
  lib.hackrf_error_name result ++ " (" ++ fmt_d result ++ ")\n"

/-- The function `usage`: nine lines on standard output. -/
def usage : List Event :=
  [ .stdout "\nUsage:\n",
    .stdout "\t-h, --help: this help\n",
    .stdout "\t-n, --register <n>: set register number for read/write operations\n",
    .stdout "\t-r, --read: read register specified by last -n argument, or all registers\n",
    .stdout "\t-w, --write <v>: write register specified by last -n argument with value <v>\n",
    .stdout "\t-d, --device <s>: specify a particular device by serial number\n",
    .stdout "\nExamples:\n",
    .stdout "\t<command> -n 12 -r    # reads from register 12\n",
    .stdout "\t<command> -r          # reads all registers\n",
    .stdout "\t<command> -n 10 -w 514 # writes register 10 with 514 decimal\n" ]

/-! ## Register operations -/

/-- The line printed by `dump_register` on success. -/
def read_line (register_number register_value : Nat) : String :=
  "[" ++ fmt_2d register_number ++ "] -> 0x" ++ fmt_03x register_value ++ "\n"

/-- The line printed by `write_register` on success. -/
def write_line (register_number register_value : Nat) : String :=
  "0x" ++ fmt_03x register_value ++ " -> [" ++ fmt_2d register_number ++ "]\n"

/-- The function `dump_register(device, register_number)`: its result and what it did. -/
def dump_register (lib : Driver) (register_number : Nat) : Int × List Event :=
  let (result, register_value) := lib.hackrf_rffc5071_read (register_number % 256)
  if result = HACKRF_SUCCESS then
    (result, [.hackrf_rffc5071_read (register_number % 256),
              .stdout (read_line register_number register_value)])
  else
    (result, [.hackrf_rffc5071_read (register_number % 256),
              .stdout ("hackrf_rffc5071_read() failed: " ++ fmt_error lib result)])

/-- The `for` loop of `dump_registers` with `remaining` iterations to go, that
is at `register_number = 31 - remaining`; `result` is the variable of the
same name. -/
def dump_registers_from (lib : Driver) : Nat → Int → Int × List Event
  | 0, result => (result, [])
  | remaining + 1, _ =>
    let (result, trace) := dump_register lib (31 - (remaining + 1))
    if result ≠ HACKRF_SUCCESS then (result, trace)
    else
      let (result, more) := dump_registers_from lib remaining result
      (result, trace ++ more)

/-- The function `dump_registers(device)`. -/
def dump_registers (lib : Driver) : Int × List Event :=
  dump_registers_from lib 31 HACKRF_SUCCESS

/-- The function `write_register(device, register_number, register_value)`. -/
def write_register (lib : Driver) (register_number register_value : Nat) : Int × List Event :=
  let result := lib.hackrf_rffc5071_write (register_number % 256) register_value
  if result = HACKRF_SUCCESS then
    (result, [.hackrf_rffc5071_write (register_number % 256) register_value,
              .stdout (write_line register_number register_value)])
  else
    (result, [.hackrf_rffc5071_write (register_number % 256) register_value,
              .stdout ("hackrf_rffc5071_write() failed: " ++ fmt_error lib result)])

/-! ## `main` -/

/-- The macro `REGISTER_INVALID`. -/
def REGISTER_INVALID : Nat := 32767

/-- The local variables of `main` that the option loop reads and writes.
The variable `register_value` has no initializer in the source; it is read
only after `-w` has stored into it. -/
structure Vars where
  register_number : Nat
  register_value : Nat
  read : Bool
  write : Bool
  serial_number : Option (List Char)
  result : Int
deriving DecidableEq, Repr

/-- How the option loop ends: `main` returns from inside it, or
`getopt_long` reports `EOF` with the variables as given. -/
inductive Parsed where
  | stop (outcome : Outcome)
  | finished (vars : Vars)
deriving DecidableEq, Repr

/-- The `%s` conversion of `optarg` (glibc prints `(null)` for a null pointer). -/
def fmt_optarg : Option (List Char) → String
  | some s => String.mk s
  | none => "(null)"

/-- The `switch` in the option loop: the variables after it, or the outcome
when it returns from `main`. `trace` is what happened before. -/
def main_switch (LONG_MAX : Nat) (opt : Char) (optarg : Option (List Char)) (v : Vars)
    (trace : List Event) : Except Outcome Vars :=
  if opt = 'n' then
    match optarg with
    | none => .error (.null_optarg trace)
    | some s =>
      let (result, register_number) := parse_int LONG_MAX s v.register_number
      .ok { v with result := result, register_number := register_number }
  else if opt = 'w' then
    match optarg with
    | none => .error (.null_optarg trace)
    | some s =>
      let (result, register_value) := parse_int LONG_MAX s v.register_value
      .ok { v with write := true, result := result, register_value := register_value }
  else if opt = 'r' then
    .ok { v with read := true }
  else if opt = 'd' then
    .ok { v with serial_number := optarg }
  else if opt = 'h' ∨ opt = '?' then
    .error (.exit EXIT_SUCCESS (trace ++ usage))
  else
    .error (.exit EXIT_FAILURE
      (trace ++ [.stderr ("unknown argument '-" ++ String.mk [opt] ++ " " ++ fmt_optarg optarg ++ "'\n")]
        ++ usage))

/-- The `while` loop over `getopt_long`, for at most `fuel` calls. -/
def main_loop (LONG_MAX : Nat) (posixly_correct : Bool) (lib : Driver) :
    Nat → getopt_data → Vars → List Event → Parsed
  | 0, _, _, _ => .stop .unfinished
  | fuel + 1, d, v, trace =>
    match getopt_long posixly_correct d with
    | (none, _) => .finished v
    | (some (opt, optarg), d) =>
      match main_switch LONG_MAX opt optarg v trace with
      | .error outcome => .stop outcome
      | .ok v =>
        if v.result ≠ HACKRF_SUCCESS then
          .stop (.exit EXIT_FAILURE
            (trace ++ [.stdout ("argument error: " ++ fmt_error lib v.result)] ++ usage))
        else main_loop LONG_MAX posixly_correct lib fuel d v trace

/-- A number that bounds the calls of `getopt_long` that do not return
`EOF`: each of them consumes at least one character of the arguments. -/
def scan_size (d : getopt_data) : Nat :=
  d.nextchar.length + (d.argv.map List.length).sum

/-- The part of `main` after the option loop. -/
def main_after_options (lib : Driver) (v : Vars) (trace : List Event) : Outcome :=
  if v.write ∧ v.read then
    .exit EXIT_FAILURE
      (trace ++ [.stderr "Read and write options are mutually exclusive.\n"] ++ usage)
  else if ¬(v.write ∨ v.read) then
    .exit EXIT_FAILURE (trace ++ [.stderr "Specify either read or write option.\n"] ++ usage)
  else
    let result := lib.hackrf_open_by_serial v.serial_number
    let trace := trace ++ [.hackrf_open_by_serial v.serial_number]
    if result ≠ 0 then
      .exit EXIT_FAILURE (trace ++ [.stdout ("hackrf_open() failed: " ++ fmt_error lib result)])
    else
      let written : Except Outcome (List Event) :=
        if v.write then
          let (result, done) := write_register lib v.register_number v.register_value
          if result ≠ 0 then
            .error (.exit EXIT_FAILURE
              (trace ++ done ++ [.stdout ("dump_registers() failed: " ++ fmt_error lib result)]))
          else .ok (trace ++ done)
        else .ok trace
      match written with
      | .error outcome => outcome
      | .ok trace =>
        let dumped : Except Outcome (List Event) :=
          if v.read then
            let (result, done) :=
              if v.register_number = REGISTER_INVALID then dump_registers lib
              else dump_register lib v.register_number
            if result ≠ 0 then
              .error (.exit EXIT_FAILURE
                (trace ++ done ++ [.stdout ("dump_registers() failed: " ++ fmt_error lib result)]))
            else .ok (trace ++ done)
          else .ok trace
        match dumped with
        | .error outcome => outcome
        | .ok trace =>
          let result := lib.hackrf_close
          let trace := trace ++ [.hackrf_close]
          if result ≠ 0 then
            .exit EXIT_FAILURE
              (trace ++ [.stdout ("hackrf_close() failed: " ++ fmt_error lib result)])
          else .exit EXIT_SUCCESS (trace ++ [.hackrf_exit])

/-- The variables of `main` when the option loop starts; `result` is then
the result of `hackrf_init`. -/
def main_vars (result : Int) : Vars :=
  { register_number := REGISTER_INVALID, register_value := 0, read := false, write := false,
    serial_number := none, result := result }

/-- The scan state at the first call of `getopt_long`: `optind` is 1. -/
def main_scan (argv : List (List Char)) : getopt_data := ⟨[], argv.drop 1⟩

/-- The option loop of `main` on `argv`, entered after `hackrf_init` succeeded. -/
def parse_options (LONG_MAX : Nat) (posixly_correct : Bool) (lib : Driver)
    (argv : List (List Char)) : Parsed :=
  main_loop LONG_MAX posixly_correct lib (scan_size (main_scan argv) + 1) (main_scan argv)
    (main_vars lib.hackrf_init) [.hackrf_init]

/-- The function `main(argc, argv)` with `argv` the list of its `argc`
strings, for a `long` of largest value `LONG_MAX`, an environment with or
without `POSIXLY_CORRECT`, and the driver `lib`. -/
def main (LONG_MAX : Nat) (posixly_correct : Bool) (lib : Driver) (argv : List (List Char)) :
    Outcome :=
  let result := lib.hackrf_init
  if result ≠ 0 then
    .exit EXIT_FAILURE
      [.hackrf_init, .stdout ("hackrf_init() failed: " ++ fmt_error lib result)]
  else
    match parse_options LONG_MAX posixly_correct lib argv with
    | .stop outcome => outcome
    | .finished v => main_after_options lib v [.hackrf_init]

/-! ## Vocabulary of the statements -/

/-- The successive results of `getopt_long` up to `EOF`, for at most `fuel` calls. -/
def getopt_all (posixly_correct : Bool) : Nat → getopt_data → List (Char × Option (List Char))
  | 0, _ => []
  | fuel + 1, d =>
    match getopt_long posixly_correct d with
    | (none, _) => []
    | (some r, d) => r :: getopt_all posixly_correct fuel d

/-- The options that `getopt_long` finds in `argv`, each with its argument. -/
def options_of (posixly_correct : Bool) (argv : List (List Char)) :
    List (Char × Option (List Char)) :=
  getopt_all posixly_correct (scan_size (main_scan argv) + 1) (main_scan argv)

/-- The events that are calls on the device: open, read, write, close. -/
def is_device_call : Event → Bool
  | .hackrf_open_by_serial _ => true
  | .hackrf_rffc5071_read _ => true
  | .hackrf_rffc5071_write _ _ => true
  | .hackrf_close => true
  | _ => false

/-- The events that are text on standard output or standard error. -/
def is_print : Event → Bool
  | .stdout _ => true
  | .stderr _ => true
  | _ => false

/-- The calls into the driver of a trace, in order: the events that are not prints. -/
def calls_of (trace : List Event) : List Event :=
  trace.filter (fun e => !is_print e)

/-- The trace of an outcome (empty when `main` did not return). -/
def Outcome.events : Outcome → List Event
  | .exit _ trace => trace
  | .null_optarg trace => trace
  | .unfinished => []

/-- The sixteen digits with the letters in lower case; the position of a
digit is its value. -/
def lower_digits : List Char := "0123456789abcdef".toList

/-- The sixteen digits with the letters in upper case. -/
def upper_digits : List Char := "0123456789ABCDEF".toList

/-- Whether `c` is one of the first `base` digits, in either case. -/
def literal_digit (base : Nat) (c : Char) : Bool :=
  (lower_digits.take base).contains c || (upper_digits.take base).contains c

/-- The number a digit of a literal stands for. -/
def literal_digit_value (c : Char) : Nat :=
  if lower_digits.contains c then lower_digits.indexOf c else upper_digits.indexOf c

/-- One or more decimal digits: base 10 and the digits. -/
def decimal_literal (tok : List Char) : Option (Nat × List Char) :=
  if tok ≠ [] ∧ tok.all (literal_digit 10) then some (10, tok) else none

/-- The literals of the integer parser as the specification words them: one
or more decimal digits; or `0x`/`0X` and one or more hexadecimal digits; or
`0b`/`0B` and one or more binary digits. Gives the base and the digits. -/
def literal (tok : List Char) : Option (Nat × List Char) :=
  match tok with
  | '0' :: c :: ds =>
    if c = 'x' ∨ c = 'X' then
      if ds ≠ [] ∧ ds.all (literal_digit 16) then some (16, ds) else none
    else if c = 'b' ∨ c = 'B' then
      if ds ≠ [] ∧ ds.all (literal_digit 2) then some (2, ds) else none
    else decimal_literal tok
  | _ => decimal_literal tok

/-- The number that the digits `ds` (most significant first) denote in `base`. -/
def literal_value (base : Nat) (ds : List Char) : Nat :=
  Nat.ofDigits base (ds.reverse.map literal_digit_value)

/-- What `strtol` converts as a whole in `base`: white space, a sign, in
base 16 the characters `0x`/`0X`, all three optional, and then one or more
digits of the base and nothing else. -/
def whole_number (base : Nat) (s : List Char) : Prop :=
  ∃ ws sign pre ds : List Char,
    s = ws ++ (sign ++ (pre ++ ds)) ∧
    (∀ c ∈ ws, isspace c = true) ∧
    (sign = [] ∨ sign = ['-'] ∨ sign = ['+']) ∧
    (pre = [] ∨ (base = 16 ∧ (pre = ['0', 'x'] ∨ pre = ['0', 'X']))) ∧
    ds ≠ [] ∧ (∀ c ∈ ds, is_digit_of base c = true)

/-- The tokens that `parse_int` accepts: an optional `0x`/`0X` (base 16) or
`0b`/`0B` (base 2), base 10 without it, and then a whole number of that base
in the sense of `strtol`. -/
def accepted_form (tok : List Char) : Prop :=
  ∃ (lead : List Char) (base : Nat) (body : List Char),
    tok = lead ++ body ∧
    ((lead = [] ∧ base = 10) ∨ ((lead = ['0', 'x'] ∨ lead = ['0', 'X']) ∧ base = 16) ∨
      ((lead = ['0', 'b'] ∨ lead = ['0', 'B']) ∧ base = 2)) ∧
    whole_number base body

/-- What `main` returns after a successful operation whose trace is
`trace`: the device is closed, and the library shut down if closing succeeded. -/
def close_outcome (lib : Driver) (trace : List Event) : Outcome :=
  if lib.hackrf_close = 0 then
    .exit EXIT_SUCCESS (trace ++ [.hackrf_close, .hackrf_exit])
  else
    .exit EXIT_FAILURE
      (trace ++ [.hackrf_close,
        .stdout ("hackrf_close() failed: " ++ fmt_error lib lib.hackrf_close)])

/-- A run of `main` that opens the device `serial_number` and reads the one
register `n`: one driver read, at address `n % 256`; on success the line
`[n] -> 0xHEX` with the value read, then the close; on failure the two error
lines and the failure status, without a close. -/
def read_outcome (lib : Driver) (serial_number : Option (List Char)) (n : Nat) : Outcome :=
  if (lib.hackrf_rffc5071_read (n % 256)).1 = HACKRF_SUCCESS then
    close_outcome lib
      [.hackrf_init, .hackrf_open_by_serial serial_number, .hackrf_rffc5071_read (n % 256),
        .stdout (read_line n (lib.hackrf_rffc5071_read (n % 256)).2)]
  else
    .exit EXIT_FAILURE
      [.hackrf_init, .hackrf_open_by_serial serial_number, .hackrf_rffc5071_read (n % 256),
        .stdout ("hackrf_rffc5071_read() failed: " ++
          fmt_error lib (lib.hackrf_rffc5071_read (n % 256)).1),
        .stdout ("dump_registers() failed: " ++
          fmt_error lib (lib.hackrf_rffc5071_read (n % 256)).1)]

/-- A run of `main` that opens the device `serial_number` and writes `v` to
register `n`: one driver write, at address `n % 256` with value `v`, and no
read; on success the line `0xHEX -> [n]`, then the close; on failure the two
error lines and the failure status, without a close. -/
def write_outcome (lib : Driver) (serial_number : Option (List Char)) (n v : Nat) : Outcome :=
  if lib.hackrf_rffc5071_write (n % 256) v = HACKRF_SUCCESS then
    close_outcome lib
      [.hackrf_init, .hackrf_open_by_serial serial_number, .hackrf_rffc5071_write (n % 256) v,
        .stdout (write_line n v)]
  else
    .exit EXIT_FAILURE
      [.hackrf_init, .hackrf_open_by_serial serial_number, .hackrf_rffc5071_write (n % 256) v,
        .stdout ("hackrf_rffc5071_write() failed: " ++
          fmt_error lib (lib.hackrf_rffc5071_write (n % 256) v)),
        .stdout ("dump_registers() failed: " ++
          fmt_error lib (lib.hackrf_rffc5071_write (n % 256) v))]

/-- A run of `main` that opens the device `serial_number` and dumps all
the registers: the reads of `dump_registers`, then the close, or on failure
the error line and the failure status, without a close. -/
def dump_outcome (lib : Driver) (serial_number : Option (List Char)) : Outcome :=
  if (dump_registers lib).1 = HACKRF_SUCCESS then
    close_outcome lib
      ([.hackrf_init, .hackrf_open_by_serial serial_number] ++ (dump_registers lib).2)
  else
    .exit EXIT_FAILURE
      ([.hackrf_init, .hackrf_open_by_serial serial_number] ++ (dump_registers lib).2 ++
        [.stdout ("dump_registers() failed: " ++ fmt_error lib (dump_registers lib).1)])

/-- A driver for examples: every call succeeds and register `a` holds `a + 256`. -/
def demo : Driver :=
  { hackrf_init := 0, hackrf_open_by_serial := fun _ => 0,
    hackrf_rffc5071_read := fun a => (0, a + 256), hackrf_rffc5071_write := fun _ _ => 0,
    hackrf_close := 0, hackrf_error_name := fun _ => "HACKRF_ERROR" }

/-- Command line from its words. -/
def cmd (words : List String) : List (List Char) := words.map String.toList



/-! ## The integer parser -/

theorem literal_digit_facts :
    ∀ base ∈ [2, 10, 16], ∀ c ∈ lower_digits.take base ++ upper_digits.take base,
      digit_value c = some (literal_digit_value c) ∧ literal_digit_value c < base ∧
      isspace c = false ∧ c ≠ '-' ∧ c ≠ '+' ∧ c ≠ 'x' ∧ c ≠ 'X' := by
  decide

theorem decimal_digit_facts :
    ∀ c ∈ lower_digits.take 10 ++ upper_digits.take 10, c ≠ 'b' ∧ c ≠ 'B' := by
  decide

theorem literal_digit_mem {base : Nat} {c : Char} (h : literal_digit base c = true) :
    c ∈ lower_digits.take base ++ upper_digits.take base := by
  unfold literal_digit at h
  simp only [Bool.or_eq_true, List.contains_eq_any_beq, List.any_eq_true, beq_iff_eq] at h
  rcases h with ⟨x, hx, rfl⟩ | ⟨x, hx, rfl⟩
  · exact List.mem_append.mpr (Or.inl hx)
  · exact List.mem_append.mpr (Or.inr hx)

theorem scan_digits_literal (base : Nat) (hb : base ∈ [2, 10, 16]) (ds : List Char) (acc : Nat)
    (h : ∀ c ∈ ds, literal_digit base c = true) :
    scan_digits base ds acc = (acc * base ^ ds.length + literal_value base ds, []) := by
  induction ds generalizing acc with
  | nil => simp [scan_digits, literal_value]
  | cons c cs ih =>
    obtain ⟨hv, hlt, -⟩ := literal_digit_facts base hb c
      (literal_digit_mem (h c (List.mem_cons_self _ _)))
    unfold scan_digits
    simp only [hv, hlt, if_true]
    rw [ih _ (fun x hx => h x (List.mem_cons_of_mem _ hx))]
    simp only [literal_value, List.reverse_cons, List.map_append, List.map_cons, List.map_nil,
      Nat.ofDigits_append, Nat.ofDigits_singleton, List.length_map, List.length_reverse,
      List.length_cons, Prod.mk.injEq, and_true]
    ring

theorem strtol_literal (LONG_MAX base : Nat) (hb : base ∈ [2, 10, 16]) (ds : List Char)
    (hne : ds ≠ []) (h : ∀ c ∈ ds, literal_digit base c = true) :
    strtol LONG_MAX ds base = (((min (literal_value base ds) LONG_MAX : Nat) : Int), []) := by
  obtain ⟨c, cs, rfl⟩ := List.exists_cons_of_ne_nil hne
  obtain ⟨-, -, hsp, hm, hp, -, -⟩ := literal_digit_facts base hb c
    (literal_digit_mem (h c (List.mem_cons_self _ _)))
  have h1 : (c :: cs).dropWhile isspace = c :: cs := by simp [List.dropWhile, hsp]
  have h2 : strtol_sign (c :: cs) = (false, c :: cs) := by
    unfold strtol_sign
    split
    · rename_i heq
      exact absurd (List.cons.inj heq).1 hm
    · rename_i heq
      exact absurd (List.cons.inj heq).1 hp
    · rfl
  have h3 : strtol_skip_0x base (c :: cs) = c :: cs := by
    unfold strtol_skip_0x
    split
    · rename_i x d t heq
      have hxmem : x ∈ c :: cs := by rw [heq]; simp
      obtain ⟨-, -, -, -, -, hx, hX⟩ := literal_digit_facts base hb x
        (literal_digit_mem (h x hxmem))
      simp [hx, hX, heq]
    · rfl
  unfold strtol
  simp only [h1, h2, h3, scan_digits_literal base hb (c :: cs) 0 h, List.length_nil,
    List.length_cons]
  simp only [Nat.zero_mul, Nat.zero_add]
  by_cases hgt : literal_value base (c :: cs) > LONG_MAX
  · simp [hgt, Nat.min_eq_right (Nat.le_of_lt hgt)]
  · simp [hgt, Nat.min_eq_left (Nat.le_of_not_gt hgt)]

theorem decimal_literal_some {t : List Char} {base : Nat} {ds : List Char}
    (ht : decimal_literal t = some (base, ds)) :
    base = 10 ∧ ds = t ∧ t ≠ [] ∧ ∀ c ∈ t, literal_digit 10 c = true := by
  unfold decimal_literal at ht
  split at ht
  · rename_i hc
    simp only [Option.some.injEq, Prod.mk.injEq] at ht
    exact ⟨ht.1.symm, ht.2.symm, hc.1, fun c hcm => List.all_eq_true.mp hc.2 c hcm⟩
  · simp at ht

theorem parse_int_base_literal {tok : List Char} {base : Nat} {ds : List Char}
    (h : literal tok = some (base, ds)) :
    parse_int_base tok = (base, ds) ∧ base ∈ [2, 10, 16] ∧ ds ≠ [] ∧
      ∀ c ∈ ds, literal_digit base c = true := by
  unfold literal at h
  split at h
  · rename_i c t
    by_cases hx : c = 'x' ∨ c = 'X'
    · simp only [hx, if_true] at h
      split at h
      · rename_i hc
        simp only [Option.some.injEq, Prod.mk.injEq] at h
        obtain ⟨rfl, rfl⟩ := h
        obtain ⟨d, r, rfl⟩ := List.exists_cons_of_ne_nil hc.1
        refine ⟨?_, by simp, hc.1, fun c hcm => List.all_eq_true.mp hc.2 c hcm⟩
        simp [parse_int_base, hx]
      · simp at h
    · by_cases hbb : c = 'b' ∨ c = 'B'
      · simp only [hx, if_false, hbb, if_true] at h
        split at h
        · rename_i hc
          simp only [Option.some.injEq, Prod.mk.injEq] at h
          obtain ⟨rfl, rfl⟩ := h
          obtain ⟨d, r, rfl⟩ := List.exists_cons_of_ne_nil hc.1
          refine ⟨?_, by simp, hc.1, fun c hcm => List.all_eq_true.mp hc.2 c hcm⟩
          simp [parse_int_base, hx, hbb]
        · simp at h
      · simp only [hx, if_false, hbb] at h
        obtain ⟨rfl, rfl, hne, hall⟩ := decimal_literal_some h
        refine ⟨?_, by simp, hne, hall⟩
        simp [parse_int_base, hx, hbb]
  · rename_i hnot
    obtain ⟨rfl, rfl, hne, hall⟩ := decimal_literal_some h
    refine ⟨?_, by simp, hne, hall⟩
    unfold parse_int_base
    split
    · split
      · exact absurd rfl (hnot _ _)
      · rfl
    · rfl

/-- Claim C1, as the code has it: for every valid decimal, hexadecimal or
binary literal `parse_int` returns `HACKRF_SUCCESS` and stores the value of
the literal, first limited to `LONG_MAX` (the result of `strtol` saturates),
then truncated to 16 bits; in particular the value modulo 2^16 whenever the
value is at most `LONG_MAX`. The base is 16 after `0x`/`0X`, 2 after
`0b`/`0B` and 10 otherwise. -/
theorem parse_int_literal (LONG_MAX : Nat) (tok : List Char) (value base : Nat)
    (ds : List Char) (h : literal tok = some (base, ds)) :
    parse_int LONG_MAX tok value =
        (HACKRF_SUCCESS, min (literal_value base ds) LONG_MAX % 65536) ∧
      (literal_value base ds ≤ LONG_MAX →
        parse_int LONG_MAX tok value = (HACKRF_SUCCESS, literal_value base ds % 65536)) := by
  obtain ⟨hbase, hb, hne, hall⟩ := parse_int_base_literal h
  have key : parse_int LONG_MAX tok value =
      (HACKRF_SUCCESS, min (literal_value base ds) LONG_MAX % 65536) := by
    unfold parse_int
    simp only [hbase, strtol_literal LONG_MAX base hb ds hne hall]
    obtain ⟨d, r, rfl⟩ := List.exists_cons_of_ne_nil hne
    simp only [List.length_cons, List.length_nil, List.head?_nil, and_true, ne_eq,
      Nat.add_one_ne_zero, not_false_eq_true, if_true, Prod.mk.injEq, true_and]
    omega
  refine ⟨key, fun hle => ?_⟩
  rw [key, Nat.min_eq_left hle]

/-- Witness of `parse_int_literal`: the token `0x1F` is the number 31. -/
theorem parse_int_literal_witness :
    parse_int (2 ^ 63 - 1) ['0', 'x', '1', 'F'] 0 =
        (HACKRF_SUCCESS, min (literal_value 16 ['1', 'F']) (2 ^ 63 - 1) % 65536) ∧
      (literal_value 16 ['1', 'F'] ≤ 2 ^ 63 - 1 →
        parse_int (2 ^ 63 - 1) ['0', 'x', '1', 'F'] 0 =
          (HACKRF_SUCCESS, literal_value 16 ['1', 'F'] % 65536)) :=
  parse_int_literal (2 ^ 63 - 1) ['0', 'x', '1', 'F'] 0 16 ['1', 'F'] (by decide)

/-- Claim C1 fails as stated: the decimal literal `9223372036854775808`
(2^63) is a multiple of 2^16, and `parse_int` stores 65535 for it, the low
16 bits of `LONG_MAX`, with a 64-bit `long` as with a 32-bit one. -/
theorem parse_int_literal_saturates :
    literal "9223372036854775808".toList = some (10, "9223372036854775808".toList) ∧
      literal_value 10 "9223372036854775808".toList % 65536 = 0 ∧
      parse_int (2 ^ 63 - 1) "9223372036854775808".toList 0 = (HACKRF_SUCCESS, 65535) ∧
      parse_int (2 ^ 31 - 1) "9223372036854775808".toList 0 = (HACKRF_SUCCESS, 65535) := by
  decide

theorem digit_not_space_sign {base : Nat} {c : Char} (h : is_digit_of base c = true) :
    isspace c = false ∧ c ≠ '-' ∧ c ≠ '+' := by
  unfold is_digit_of at h
  cases hv : digit_value c with
  | none => simp [hv] at h
  | some v =>
    unfold digit_value at hv
    have hs : isspace c = false := by
      unfold isspace
      split_ifs at hv <;> simp <;> omega
    refine ⟨hs, ?_, ?_⟩ <;> rintro rfl <;> simp at hv

theorem scan_digits_rest_nil (base : Nat) (s : List Char) (acc n : Nat)
    (h : scan_digits base s acc = (n, [])) : ∀ c ∈ s, is_digit_of base c = true := by
  induction s generalizing acc with
  | nil => simp
  | cons c cs ih =>
    unfold scan_digits at h
    cases hv : digit_value c with
    | none => simp [hv] at h
    | some v =>
      simp only [hv] at h
      by_cases hlt : v < base
      · simp only [hlt, if_true] at h
        intro x hx
        rcases List.mem_cons.mp hx with rfl | hx
        · simp [is_digit_of, hv, hlt]
        · exact ih _ h x hx
      · simp [hlt] at h

theorem strtol_sign_split (s : List Char) :
    ∃ sign, s = sign ++ (strtol_sign s).2 ∧ (sign = [] ∨ sign = ['-'] ∨ sign = ['+']) := by
  unfold strtol_sign
  split
  · exact ⟨['-'], rfl, by simp⟩
  · exact ⟨['+'], rfl, by simp⟩
  · exact ⟨[], rfl, by simp⟩

theorem strtol_skip_0x_split (base : Nat) (s : List Char) :
    ∃ pre, s = pre ++ strtol_skip_0x base s ∧
      (pre = [] ∨ (base = 16 ∧ (pre = ['0', 'x'] ∨ pre = ['0', 'X']))) := by
  unfold strtol_skip_0x
  split
  · rename_i x d t
    split
    · rename_i hc
      rcases hc.2.1 with rfl | rfl
      · exact ⟨['0', 'x'], rfl, Or.inr ⟨hc.1, Or.inl rfl⟩⟩
      · exact ⟨['0', 'X'], rfl, Or.inr ⟨hc.1, Or.inr rfl⟩⟩
    · exact ⟨[], rfl, Or.inl rfl⟩
  · exact ⟨[], rfl, Or.inl rfl⟩

theorem strtol_end (LONG_MAX : Nat) (s : List Char) (base : Nat) :
    (strtol LONG_MAX s base).2 =
      if (scan_digits base (strtol_skip_0x base (strtol_sign (s.dropWhile isspace)).2) 0).2.length
          = (strtol_skip_0x base (strtol_sign (s.dropWhile isspace)).2).length
      then s
      else (scan_digits base (strtol_skip_0x base (strtol_sign (s.dropWhile isspace)).2) 0).2 := by
  rcases hsg : strtol_sign (s.dropWhile isspace) with ⟨neg, s2⟩
  rcases hsc : scan_digits base (strtol_skip_0x base s2) 0 with ⟨acc, rest⟩
  simp only [strtol, hsg, hsc]
  split_ifs <;> rfl

theorem whole_number_of_strtol (LONG_MAX : Nat) (s : List Char) (base : Nat)
    (h1 : s.length ≠ (strtol LONG_MAX s base).2.length)
    (h2 : (strtol LONG_MAX s base).2 = []) : whole_number base s := by
  rw [strtol_end] at h1 h2
  obtain ⟨sign, hsign, hsg⟩ := strtol_sign_split (s.dropWhile isspace)
  obtain ⟨pre, hpre, hpr⟩ := strtol_skip_0x_split base (strtol_sign (s.dropWhile isspace)).2
  generalize strtol_skip_0x base (strtol_sign (s.dropWhile isspace)).2 = s3 at *
  generalize (strtol_sign (s.dropWhile isspace)).2 = s2 at *
  split_ifs at h1 h2 with hlen
  · exact absurd rfl h1
  · refine ⟨s.takeWhile isspace, sign, pre, s3, ?_, ?_, hsg, hpr, ?_, ?_⟩
    · rw [← hpre, ← hsign, List.takeWhile_append_dropWhile]
    · intro c hc
      exact (List.mem_takeWhile_imp hc)
    · rintro rfl
      rw [h2] at hlen
      simp [scan_digits] at hlen
    · rcases hsc : scan_digits base s3 0 with ⟨acc, rest⟩
      rw [hsc] at h2
      simp only at h2
      subst h2
      exact scan_digits_rest_nil base s3 0 acc hsc

theorem scan_digits_all (base : Nat) (ds : List Char) (acc : Nat)
    (h : ∀ c ∈ ds, is_digit_of base c = true) :
    ∃ n, scan_digits base ds acc = (n, []) := by
  induction ds generalizing acc with
  | nil => exact ⟨acc, rfl⟩
  | cons c cs ih =>
    have hc := h c (List.mem_cons_self _ _)
    unfold is_digit_of at hc
    unfold scan_digits
    cases hv : digit_value c with
    | none => simp [hv] at hc
    | some v =>
      simp only [hv, decide_eq_true_eq] at hc
      simp only [hc, if_true]
      exact ih _ (fun x hx => h x (List.mem_cons_of_mem _ hx))

theorem dropWhile_isspace_append (ws : List Char) (h : Char) (t : List Char)
    (hws : ∀ c ∈ ws, isspace c = true) (hh : isspace h = false) :
    (ws ++ h :: t).dropWhile isspace = h :: t := by
  induction ws with
  | nil => simp [List.dropWhile, hh]
  | cons w ws ih =>
    have hw := hws w (List.mem_cons_self _ _)
    simp only [List.cons_append, List.dropWhile, hw]
    exact ih (fun c hc => hws c (List.mem_cons_of_mem _ hc))

theorem strtol_sign_none (h : Char) (t : List Char) (hm : h ≠ '-') (hp : h ≠ '+') :
    strtol_sign (h :: t) = (false, h :: t) := by
  unfold strtol_sign
  split
  · rename_i heq
    exact absurd (List.cons.inj heq).1 hm
  · rename_i heq
    exact absurd (List.cons.inj heq).1 hp
  · rfl

theorem strtol_skip_0x_digits (base : Nat) (ds : List Char)
    (hds : ∀ c ∈ ds, is_digit_of base c = true) : strtol_skip_0x base ds = ds := by
  unfold strtol_skip_0x
  split
  · rename_i x d t
    split
    · rename_i hc
      have hx := hds x (by simp)
      rw [hc.1] at hx
      rcases hc.2.1 with rfl | rfl
      · exact absurd hx (by decide)
      · exact absurd hx (by decide)
    · rfl
  · rfl

theorem strtol_of_whole_number (LONG_MAX : Nat) (s : List Char) (base : Nat)
    (h : whole_number base s) :
    s.length ≠ (strtol LONG_MAX s base).2.length ∧ (strtol LONG_MAX s base).2 = [] := by
  obtain ⟨ws, sign, pre, ds, rfl, hws, hsign, hpre, hne, hds⟩ := h
  obtain ⟨d, r, rfl⟩ := List.exists_cons_of_ne_nil hne
  obtain ⟨hdsp, hdm, hdp⟩ := digit_not_space_sign (hds d (List.mem_cons_self _ _))
  have hd16 : base = 16 → is_digit_of 16 d = true := by
    rintro rfl
    exact hds d (List.mem_cons_self _ _)
  obtain ⟨n, hscan⟩ := scan_digits_all base (d :: r) 0 hds
  have hskip : strtol_skip_0x base (strtol_sign
      ((ws ++ (sign ++ (pre ++ d :: r))).dropWhile isspace)).2 = d :: r := by
    rcases hsign with rfl | rfl | rfl <;> rcases hpre with rfl | ⟨hb, rfl | rfl⟩
    · simp only [List.nil_append]
      rw [dropWhile_isspace_append ws d r hws hdsp, strtol_sign_none d r hdm hdp]
      exact strtol_skip_0x_digits base _ hds
    · simp only [List.nil_append, List.cons_append]
      rw [dropWhile_isspace_append ws _ _ hws (by decide), strtol_sign_none _ _ (by decide)
        (by decide)]
      simp [strtol_skip_0x, hb, hd16 hb]
    · simp only [List.nil_append, List.cons_append]
      rw [dropWhile_isspace_append ws _ _ hws (by decide), strtol_sign_none _ _ (by decide)
        (by decide)]
      simp [strtol_skip_0x, hb, hd16 hb]
    · simp only [List.nil_append, List.cons_append]
      rw [dropWhile_isspace_append ws _ _ hws (by decide)]
      exact strtol_skip_0x_digits base _ hds
    · simp only [List.nil_append, List.cons_append]
      rw [dropWhile_isspace_append ws _ _ hws (by decide)]
      simp [strtol_sign, strtol_skip_0x, hb, hd16 hb]
    · simp only [List.nil_append, List.cons_append]
      rw [dropWhile_isspace_append ws _ _ hws (by decide)]
      simp [strtol_sign, strtol_skip_0x, hb, hd16 hb]
    · simp only [List.nil_append, List.cons_append]
      rw [dropWhile_isspace_append ws _ _ hws (by decide)]
      exact strtol_skip_0x_digits base _ hds
    · simp only [List.nil_append, List.cons_append]
      rw [dropWhile_isspace_append ws _ _ hws (by decide)]
      simp [strtol_sign, strtol_skip_0x, hb, hd16 hb]
    · simp only [List.nil_append, List.cons_append]
      rw [dropWhile_isspace_append ws _ _ hws (by decide)]
      simp [strtol_sign, strtol_skip_0x, hb, hd16 hb]
  rw [strtol_end, hskip, hscan]
  simp

theorem parse_int_result (LONG_MAX : Nat) (tok : List Char) (value : Nat) :
    parse_int LONG_MAX tok value =
      if (parse_int_base tok).2.length ≠
            (strtol LONG_MAX (parse_int_base tok).2 (parse_int_base tok).1).2.length ∧
          (strtol LONG_MAX (parse_int_base tok).2 (parse_int_base tok).1).2 = []
      then (HACKRF_SUCCESS,
        ((strtol LONG_MAX (parse_int_base tok).2 (parse_int_base tok).1).1 % 65536).toNat)
      else (HACKRF_ERROR_INVALID_PARAM, value) := by
  rcases hb : parse_int_base tok with ⟨base, s⟩
  rcases hs : strtol LONG_MAX s base with ⟨long_value, s_end⟩
  simp only [parse_int, hb, hs]
  cases s_end <;> simp

theorem parse_int_base_split (tok : List Char) :
    ∃ lead, tok = lead ++ (parse_int_base tok).2 ∧
      ((lead = [] ∧ (parse_int_base tok).1 = 10) ∨
        ((lead = ['0', 'x'] ∨ lead = ['0', 'X']) ∧ (parse_int_base tok).1 = 16) ∨
        ((lead = ['0', 'b'] ∨ lead = ['0', 'B']) ∧ (parse_int_base tok).1 = 2)) := by
  unfold parse_int_base
  split
  · split
    · rename_i c t _
      by_cases hx : c = 'x' ∨ c = 'X'
      · simp only [hx, if_true]
        rcases hx with rfl | rfl
        · exact ⟨['0', 'x'], rfl, by simp⟩
        · exact ⟨['0', 'X'], rfl, by simp⟩
      · by_cases hbb : c = 'b' ∨ c = 'B'
        · simp only [hx, if_false, hbb, if_true]
          rcases hbb with rfl | rfl
          · exact ⟨['0', 'b'], rfl, by simp⟩
          · exact ⟨['0', 'B'], rfl, by simp⟩
        · simp only [hx, hbb, if_false]
          exact ⟨[], rfl, by simp⟩
    · exact ⟨[], rfl, by simp⟩
  · exact ⟨[], rfl, by simp⟩

theorem whole_number_ne_nil {base : Nat} {s : List Char} (h : whole_number base s) : s ≠ [] := by
  obtain ⟨ws, sign, pre, ds, rfl, -, -, -, hne, -⟩ := h
  simp [hne]

theorem whole_number_ten_zero {c : Char} {t : List Char}
    (h : whole_number 10 ('0' :: c :: t)) : is_digit_of 10 c = true := by
  obtain ⟨ws, sign, pre, ds, heq, hws, hsign, hpre, hne, hds⟩ := h
  have hpre0 : pre = [] := by
    rcases hpre with rfl | ⟨hb, -⟩
    · rfl
    · exact absurd hb (by decide)
  subst hpre0
  have hws0 : ws = [] := by
    cases ws with
    | nil => rfl
    | cons w ws =>
      have hw := hws w (List.mem_cons_self _ _)
      simp only [List.cons_append, List.cons.injEq] at heq
      rw [← heq.1] at hw
      exact absurd hw (by decide)
  subst hws0
  have hsign0 : sign = [] := by
    rcases hsign with rfl | rfl | rfl
    · rfl
    · simp at heq
    · simp at heq
  subst hsign0
  simp only [List.nil_append] at heq
  exact hds c (by rw [← heq]; simp)

theorem parse_int_base_of_form {lead : List Char} {base : Nat} {body : List Char}
    (hrel : (lead = [] ∧ base = 10) ∨ ((lead = ['0', 'x'] ∨ lead = ['0', 'X']) ∧ base = 16) ∨
      ((lead = ['0', 'b'] ∨ lead = ['0', 'B']) ∧ base = 2))
    (hbody : whole_number base body) : parse_int_base (lead ++ body) = (base, body) := by
  obtain ⟨h, t, rfl⟩ := List.exists_cons_of_ne_nil (whole_number_ne_nil hbody)
  rcases hrel with ⟨rfl, rfl⟩ | ⟨rfl | rfl, rfl⟩ | ⟨rfl | rfl, rfl⟩
  · simp only [List.nil_append]
    unfold parse_int_base
    split
    · split
      · rename_i c r heq
        rw [heq] at hbody
        have hc := whole_number_ten_zero hbody
        by_cases hx : c = 'x' ∨ c = 'X'
        · rcases hx with rfl | rfl <;> exact absurd hc (by decide)
        · by_cases hbb : c = 'b' ∨ c = 'B'
          · rcases hbb with rfl | rfl <;> exact absurd hc (by decide)
          · simp only [hx, hbb, if_false, heq]
      · rfl
    · rfl
  · simp [parse_int_base]
  · simp [parse_int_base]
  · simp [parse_int_base]
  · simp [parse_int_base]

theorem accepted_form_iff (tok : List Char) :
    accepted_form tok ↔ whole_number (parse_int_base tok).1 (parse_int_base tok).2 := by
  constructor
  · rintro ⟨lead, base, body, rfl, hrel, hbody⟩
    rw [parse_int_base_of_form hrel hbody]
    exact hbody
  · intro h
    obtain ⟨lead, hsplit, hrel⟩ := parse_int_base_split tok
    exact ⟨lead, _, _, hsplit, hrel, h⟩

/-- The tokens of claim C2 that `parse_int` accepts, as the code has it:
`parse_int` returns `HACKRF_SUCCESS` exactly for the tokens made of an
optional `0x`/`0X`/`0b`/`0B`, then what `strtol` skips or reads before the
digits (white space, a sign, in base 16 a further `0x`/`0X`, each optional),
then one or more digits of the selected base and nothing else. For every
other token, and so whenever `strtol` consumes nothing or leaves a character
unread, it returns `HACKRF_ERROR_INVALID_PARAM` and leaves `*value` as it was. -/
theorem parse_int_accepts (LONG_MAX : Nat) (tok : List Char) (value : Nat) :
    ((parse_int LONG_MAX tok value).1 = HACKRF_SUCCESS ↔ accepted_form tok) ∧
      (¬ accepted_form tok →
        parse_int LONG_MAX tok value = (HACKRF_ERROR_INVALID_PARAM, value)) ∧
      ((strtol LONG_MAX (parse_int_base tok).2 (parse_int_base tok).1).2.length =
            (parse_int_base tok).2.length ∨
          (strtol LONG_MAX (parse_int_base tok).2 (parse_int_base tok).1).2 ≠ [] →
        parse_int LONG_MAX tok value = (HACKRF_ERROR_INVALID_PARAM, value)) := by
  have hiff : (parse_int LONG_MAX tok value).1 = HACKRF_SUCCESS ↔ accepted_form tok := by
    rw [accepted_form_iff, parse_int_result]
    constructor
    · intro h
      split_ifs at h with hc
      · exact whole_number_of_strtol LONG_MAX _ _ hc.1 hc.2
      · simp [HACKRF_ERROR_INVALID_PARAM, HACKRF_SUCCESS] at h
    · intro h
      rw [if_pos (strtol_of_whole_number LONG_MAX _ _ h)]
  have hno : ¬ accepted_form tok →
      parse_int LONG_MAX tok value = (HACKRF_ERROR_INVALID_PARAM, value) := by
    intro h
    rw [accepted_form_iff] at h
    rw [parse_int_result, if_neg]
    exact fun hc => h (whole_number_of_strtol LONG_MAX _ _ hc.1 hc.2)
  refine ⟨hiff, hno, fun h => ?_⟩
  rw [parse_int_result, if_neg]
  rintro ⟨h1, h2⟩
  rcases h with h | h
  · exact h1 h.symm
  · exact h h2

/-- Claim C2 fails as stated: the token `-1` has no digits-only form (it is
not a literal), yet `parse_int` accepts it and stores 65535; likewise a
token with a leading blank. -/
theorem parse_int_accepts_sign :
    literal ['-', '1'] = none ∧
      parse_int (2 ^ 63 - 1) ['-', '1'] 0 = (HACKRF_SUCCESS, 65535) ∧
      literal [' ', '7'] = none ∧
      parse_int (2 ^ 63 - 1) [' ', '7'] 0 = (HACKRF_SUCCESS, 7) := by
  decide

/-! ## Register operations -/

theorem calls_of_append (a b : List Event) : calls_of (a ++ b) = calls_of a ++ calls_of b := by
  simp [calls_of]

theorem dump_register_result (lib : Driver) (n : Nat) :
    (dump_register lib n).1 = (lib.hackrf_rffc5071_read (n % 256)).1 ∧
      calls_of (dump_register lib n).2 = [.hackrf_rffc5071_read (n % 256)] := by
  unfold dump_register
  rcases lib.hackrf_rffc5071_read (n % 256) with ⟨result, register_value⟩
  by_cases h : result = HACKRF_SUCCESS <;> simp [h, calls_of, is_print]

theorem dump_registers_from_fail (lib : Driver) (k : Nat) (result : Int) (i : Nat) (hk : k ≤ 31)
    (hlo : 31 - k ≤ i) (hi : i < 31)
    (hok : ∀ a, 31 - k ≤ a → a < i → (lib.hackrf_rffc5071_read a).1 = HACKRF_SUCCESS)
    (hbad : (lib.hackrf_rffc5071_read i).1 ≠ HACKRF_SUCCESS) :
    (dump_registers_from lib k result).1 = (lib.hackrf_rffc5071_read i).1 ∧
      calls_of (dump_registers_from lib k result).2 =
        (List.range' (31 - k) (i + 1 - (31 - k))).map Event.hackrf_rffc5071_read := by
  induction k generalizing result with
  | zero => omega
  | succ k ih =>
    have hmod : (31 - (k + 1)) % 256 = 31 - (k + 1) := Nat.mod_eq_of_lt (by omega)
    obtain ⟨hres, hcalls⟩ := dump_register_result lib (31 - (k + 1))
    rw [hmod] at hres hcalls
    unfold dump_registers_from
    rcases hd : dump_register lib (31 - (k + 1)) with ⟨r, trace⟩
    rw [hd] at hres hcalls
    simp only at hres hcalls
    dsimp only
    by_cases hieq : i = 31 - (k + 1)
    · subst hieq
      have hr : r ≠ HACKRF_SUCCESS := by rw [hres]; exact hbad
      have : 31 - (k + 1) + 1 - (31 - (k + 1)) = 1 := by omega
      rw [if_pos hr, this]
      exact ⟨hres, hcalls⟩
    · have hr : r = HACKRF_SUCCESS := by
        rw [hres]
        exact hok _ (Nat.le_refl _) (by omega)
      obtain ⟨ih1, ih2⟩ := ih r (by omega) (by omega) (fun a ha hai => hok a (by omega) hai)
      rw [if_neg (not_not.mpr hr)]
      refine ⟨ih1, ?_⟩
      rw [calls_of_append, hcalls, ih2]
      have h1 : i + 1 - (31 - (k + 1)) = (i + 1 - (31 - k)) + 1 := by omega
      have h2 : 31 - k = 31 - (k + 1) + 1 := by omega
      rw [h1, List.range'_succ, h2]
      simp

theorem dump_registers_from_ok (lib : Driver) (k : Nat) (result : Int) (hk : k ≤ 31)
    (hok : ∀ a, 31 - k ≤ a → a < 31 → (lib.hackrf_rffc5071_read a).1 = HACKRF_SUCCESS) :
    (dump_registers_from lib k result).1 = (if k = 0 then result else HACKRF_SUCCESS) ∧
      calls_of (dump_registers_from lib k result).2 =
        (List.range' (31 - k) k).map Event.hackrf_rffc5071_read := by
  induction k generalizing result with
  | zero => simp [dump_registers_from, calls_of]
  | succ k ih =>
    have hmod : (31 - (k + 1)) % 256 = 31 - (k + 1) := Nat.mod_eq_of_lt (by omega)
    obtain ⟨hres, hcalls⟩ := dump_register_result lib (31 - (k + 1))
    rw [hmod] at hres hcalls
    unfold dump_registers_from
    rcases hd : dump_register lib (31 - (k + 1)) with ⟨r, trace⟩
    rw [hd] at hres hcalls
    simp only at hres hcalls
    dsimp only
    have hr : r = HACKRF_SUCCESS := by
      rw [hres]
      exact hok _ (Nat.le_refl _) (by omega)
    obtain ⟨ih1, ih2⟩ := ih r (by omega) (fun a ha hai => hok a (by omega) hai)
    rw [if_neg (not_not.mpr hr), if_neg (Nat.add_one_ne_zero k)]
    refine ⟨by rw [ih1]; split_ifs with h0 <;> [exact hr; rfl], ?_⟩
    rw [calls_of_append, hcalls, ih2]
    have h2 : 31 - k = 31 - (k + 1) + 1 := by omega
    rw [List.range'_succ, h2]
    simp

/-- Claim C5: `dump_registers` reads the addresses 0, 1, 2, ... in ascending
order without skipping or repeating one, and these reads are its only
driver calls. If the read of address `k` is the first that fails, it is the
last read issued (so `k + 1` reads) and its error code is returned; if none
of the 31 reads fails, exactly the addresses 0 to 30 are read and the result
is `HACKRF_SUCCESS`. The result is `HACKRF_SUCCESS` exactly when all 31
reads succeed. -/
theorem dump_registers_reads (lib : Driver) :
    ((∀ a < 31, (lib.hackrf_rffc5071_read a).1 = HACKRF_SUCCESS) →
        (dump_registers lib).1 = HACKRF_SUCCESS ∧
        calls_of (dump_registers lib).2 = (List.range 31).map Event.hackrf_rffc5071_read) ∧
      (∀ k < 31, (∀ a < k, (lib.hackrf_rffc5071_read a).1 = HACKRF_SUCCESS) →
        (lib.hackrf_rffc5071_read k).1 ≠ HACKRF_SUCCESS →
        (dump_registers lib).1 = (lib.hackrf_rffc5071_read k).1 ∧
        calls_of (dump_registers lib).2 =
          (List.range (k + 1)).map Event.hackrf_rffc5071_read) ∧
      ((dump_registers lib).1 = HACKRF_SUCCESS ↔
        ∀ a < 31, (lib.hackrf_rffc5071_read a).1 = HACKRF_SUCCESS) := by
  have hall : (∀ a < 31, (lib.hackrf_rffc5071_read a).1 = HACKRF_SUCCESS) →
      (dump_registers lib).1 = HACKRF_SUCCESS ∧
      calls_of (dump_registers lib).2 = (List.range 31).map Event.hackrf_rffc5071_read := by
    intro h
    obtain ⟨h1, h2⟩ := dump_registers_from_ok lib 31 HACKRF_SUCCESS (Nat.le_refl _)
      (fun a _ ha => h a ha)
    exact ⟨by simpa using h1, by rw [List.range_eq_range']; simpa using h2⟩
  have hfirst : ∀ k < 31, (∀ a < k, (lib.hackrf_rffc5071_read a).1 = HACKRF_SUCCESS) →
      (lib.hackrf_rffc5071_read k).1 ≠ HACKRF_SUCCESS →
      (dump_registers lib).1 = (lib.hackrf_rffc5071_read k).1 ∧
      calls_of (dump_registers lib).2 =
        (List.range (k + 1)).map Event.hackrf_rffc5071_read := by
    intro k hk hok hbad
    obtain ⟨h1, h2⟩ := dump_registers_from_fail lib 31 HACKRF_SUCCESS k (Nat.le_refl _)
      (by omega) hk (fun a _ ha => hok a ha) hbad
    exact ⟨h1, by rw [List.range_eq_range']; simpa using h2⟩
  refine ⟨hall, hfirst, ⟨fun hs => ?_, fun h => (hall h).1⟩⟩
  by_contra hne
  push_neg at hne
  have hex : ∃ k, k < 31 ∧ (lib.hackrf_rffc5071_read k).1 ≠ HACKRF_SUCCESS := hne
  classical
  have hk := Nat.find_spec hex
  have hmin : ∀ a < Nat.find hex, (lib.hackrf_rffc5071_read a).1 = HACKRF_SUCCESS := by
    intro a ha
    by_contra hc
    exact Nat.find_min hex ha ⟨by omega, hc⟩
  exact hk.2 ((hfirst _ hk.1 hmin hk.2).1 ▸ hs)

/-! ## The option scan -/

theorem sum_length_dropWhile (q : List Char → Bool) (l : List (List Char)) :
    ((l.dropWhile q).map List.length).sum ≤ (l.map List.length).sum := by
  induction l with
  | nil => simp
  | cons a l ih =>
    simp only [List.dropWhile]
    split
    · simp only [List.map_cons, List.sum_cons]
      omega
    · exact Nat.le_refl _

theorem short_option_size (c : Char) (cs : List Char) (argv : List (List Char)) :
    scan_size (short_option c cs argv).2 ≤ cs.length + (argv.map List.length).sum := by
  unfold short_option
  split
  · simp [scan_size]
  · simp [scan_size]
  · split <;> simp [scan_size]

theorem process_long_option_size (text : List Char) (argv : List (List Char)) :
    scan_size (process_long_option text argv).2 ≤ (argv.map List.length).sum := by
  unfold process_long_option
  simp only []
  split
  · simp [scan_size]
  · simp [scan_size]
  · split
    · split <;> simp [scan_size]
    · split
      · split <;> simp [scan_size]
      · simp [scan_size]

theorem getopt_long_size (p : Bool) (d : getopt_data) (r : Char × Option (List Char))
    (d' : getopt_data) (h : getopt_long p d = (some r, d')) : scan_size d' < scan_size d := by
  unfold getopt_long at h
  split at h
  · rename_i c cs hn
    simp only [Prod.mk.injEq, Option.some.injEq] at h
    have := short_option_size c cs d.argv
    rw [h.2] at this
    simp only [scan_size, hn, List.length_cons] at this ⊢
    omega
  · rename_i hn
    have hle : ((if p = true then d.argv else d.argv.dropWhile NONOPTION_P).map
        List.length).sum ≤ (d.argv.map List.length).sum := by
      split
      · exact Nat.le_refl _
      · exact sum_length_dropWhile _ _
    split at h
    · simp at h
    · rename_i a rest heq
      rw [heq] at hle
      simp only [List.map_cons, List.sum_cons] at hle
      split at h
      · simp at h
      · split at h
        · rename_i text _
          simp only [Prod.mk.injEq, Option.some.injEq] at h
          have := process_long_option_size text rest
          rw [h.2] at this
          simp only [scan_size, hn, List.length_cons, List.length_nil] at hle this ⊢
          omega
        · rename_i c cs _ _
          simp only [Prod.mk.injEq, Option.some.injEq] at h
          have := short_option_size c cs rest
          rw [h.2] at this
          simp only [scan_size, hn, List.length_cons, List.length_nil] at hle this ⊢
          omega
        · simp at h

theorem find_short_optstring (c : Char) :
    (if c = ':' ∨ c = ';' then none else find_short c optstring) =
      if c = 'n' ∨ c = 'w' ∨ c = 'd' then some true
      else if c = 'r' ∨ c = 'h' ∨ c = '?' then some false
      else none := by
  by_cases h1 : c = 'n'
  · subst h1; decide
  by_cases h2 : c = 'w'
  · subst h2; decide
  by_cases h3 : c = 'd'
  · subst h3; decide
  by_cases h4 : c = 'r'
  · subst h4; decide
  by_cases h5 : c = 'h'
  · subst h5; decide
  by_cases h6 : c = '?'
  · subst h6; decide
  by_cases h7 : c = ':'
  · subst h7; decide
  have e : ∀ o : Char, c ≠ o → (o = c) = False := fun o ho => eq_false (fun hh => ho hh.symm)
  simp [find_short, optstring, h1, h2, h3, h4, h5, h6, h7, e]

theorem short_option_shape (c : Char) (cs : List Char) (argv : List (List Char)) :
    (((short_option c cs argv).1.1 = 'n' ∨ (short_option c cs argv).1.1 = 'w' ∨
        (short_option c cs argv).1.1 = 'd') ∧ (short_option c cs argv).1.2 ≠ none) ∨
      (((short_option c cs argv).1.1 = 'r' ∨ (short_option c cs argv).1.1 = 'h' ∨
        (short_option c cs argv).1.1 = '?') ∧ (short_option c cs argv).1.2 = none) := by
  unfold short_option
  rw [find_short_optstring]
  by_cases h1 : c = 'n' ∨ c = 'w' ∨ c = 'd'
  · rw [if_pos h1]
    dsimp only
    split
    · exact Or.inl ⟨h1, by simp⟩
    · exact Or.inr ⟨by simp, rfl⟩
    · exact Or.inl ⟨h1, by simp⟩
  · rw [if_neg h1]
    by_cases h2 : c = 'r' ∨ c = 'h' ∨ c = '?'
    · rw [if_pos h2]
      exact Or.inr ⟨h2, rfl⟩
    · rw [if_neg h2]
      exact Or.inr ⟨by simp, rfl⟩

theorem find_long_mem (name : List Char) (q : struct_option)
    (h : find_long name = some (some q)) : q ∈ long_options := by
  unfold find_long at h
  split at h
  · rename_i p hp
    simp only [Option.some.injEq] at h
    subst h
    exact List.mem_of_find?_eq_some hp
  · split at h
    · simp at h
    · rename_i pfound more hf
      split at h
      · simp at h
      · simp only [Option.some.injEq] at h
        subst h
        have : pfound ∈ long_options.filter (fun p => p.name.take name.length = name) := by
          rw [hf]; simp
        exact (List.mem_filter.mp this).1

theorem process_long_option_shape (text : List Char) (argv : List (List Char)) :
    (((process_long_option text argv).1.1 = 'n' ∨ (process_long_option text argv).1.1 = 'w') ∧
        (process_long_option text argv).1.2 ≠ none) ∨
      (((process_long_option text argv).1.1 = 'r' ∨ (process_long_option text argv).1.1 = 'd' ∨
        (process_long_option text argv).1.1 = 'h' ∨ (process_long_option text argv).1.1 = '?') ∧
        (process_long_option text argv).1.2 = none) := by
  unfold process_long_option
  dsimp only
  generalize text.takeWhile (fun c => c ≠ '=') = name
  generalize text.dropWhile (fun c => c ≠ '=') = nameend
  cases hf : find_long name with
  | none => simp
  | some o =>
    cases o with
    | none => simp
    | some pfound =>
      have hm := find_long_mem _ _ hf
      simp only [long_options, List.mem_cons, List.mem_singleton, List.not_mem_nil,
        or_false] at hm
      rcases hm with rfl | rfl | rfl | rfl | rfl <;> cases nameend <;> cases argv <;>
        simp [required_argument, no_argument]

theorem getopt_long_shape (p : Bool) (d : getopt_data) (r : Char × Option (List Char))
    (d' : getopt_data) (h : getopt_long p d = (some r, d')) :
    ((r.1 = 'n' ∨ r.1 = 'w') ∧ r.2 ≠ none) ∨ r.1 = 'd' ∨
      ((r.1 = 'r' ∨ r.1 = 'h' ∨ r.1 = '?') ∧ r.2 = none) := by
  have short : ∀ c cs argv, (short_option c cs argv).1 = r →
      ((r.1 = 'n' ∨ r.1 = 'w') ∧ r.2 ≠ none) ∨ r.1 = 'd' ∨
        ((r.1 = 'r' ∨ r.1 = 'h' ∨ r.1 = '?') ∧ r.2 = none) := by
    intro c cs argv hr
    have := short_option_shape c cs argv
    rw [hr] at this
    rcases this with ⟨h1 | h1 | h1, h2⟩ | h1
    · exact Or.inl ⟨Or.inl h1, h2⟩
    · exact Or.inl ⟨Or.inr h1, h2⟩
    · exact Or.inr (Or.inl h1)
    · exact Or.inr (Or.inr h1)
  unfold getopt_long at h
  split at h
  · simp only [Prod.mk.injEq, Option.some.injEq] at h
    exact short _ _ _ h.1
  · split at h
    · simp at h
    · split at h
      · simp at h
      · split at h
        · rename_i rest _ text _ _
          simp only [Prod.mk.injEq, Option.some.injEq] at h
          have := process_long_option_shape text rest
          rw [h.1] at this
          rcases this with h1 | ⟨h1 | h1 | h1 | h1, h2⟩
          · exact Or.inl h1
          · exact Or.inr (Or.inr ⟨Or.inl h1, h2⟩)
          · exact Or.inr (Or.inl h1)
          · exact Or.inr (Or.inr ⟨Or.inr (Or.inl h1), h2⟩)
          · exact Or.inr (Or.inr ⟨Or.inr (Or.inr h1), h2⟩)
        · simp only [Prod.mk.injEq, Option.some.injEq] at h
          exact short _ _ _ h.1
        · simp at h

theorem main_loop_fuel (L : Nat) (p : Bool) (lib : Driver) (fuel1 fuel2 : Nat) (d : getopt_data)
    (v : Vars) (trace : List Event) (h1 : scan_size d < fuel1) (h2 : scan_size d < fuel2) :
    main_loop L p lib fuel1 d v trace = main_loop L p lib fuel2 d v trace := by
  induction fuel1 generalizing fuel2 d v with
  | zero => omega
  | succ n ih =>
    cases fuel2 with
    | zero => omega
    | succ m =>
      rw [main_loop, main_loop]
      rcases hg : getopt_long p d with ⟨_ | ⟨opt, optarg⟩, d'⟩
      · rfl
      · dsimp only
        have hlt := getopt_long_size p d _ d' hg
        cases main_switch L opt optarg v trace with
        | error o => rfl
        | ok v' =>
          dsimp only
          split
          · rfl
          · exact ih m d' v' (by omega) (by omega)

/-- One iteration of the option loop, when the bound on the calls is large
enough: the rest of the loop runs with the bound of the new scan state. -/
theorem main_loop_step (L : Nat) (p : Bool) (lib : Driver) (fuel : Nat) (d : getopt_data)
    (v : Vars) (trace : List Event) (hf : scan_size d < fuel) :
    main_loop L p lib fuel d v trace =
      match getopt_long p d with
      | (none, _) => .finished v
      | (some (opt, optarg), d') =>
        match main_switch L opt optarg v trace with
        | .error outcome => .stop outcome
        | .ok v' =>
          if v'.result ≠ HACKRF_SUCCESS then
            .stop (.exit EXIT_FAILURE
              (trace ++ [.stdout ("argument error: " ++ fmt_error lib v'.result)] ++ usage))
          else main_loop L p lib (scan_size d' + 1) d' v' trace := by
  cases fuel with
  | zero => omega
  | succ n =>
    rw [main_loop]
    rcases hg : getopt_long p d with ⟨_ | ⟨opt, optarg⟩, d'⟩
    · rfl
    · dsimp only
      have hlt := getopt_long_size p d _ d' hg
      cases main_switch L opt optarg v trace with
      | error o => rfl
      | ok v' =>
        dsimp only
        split
        · rfl
        · exact main_loop_fuel L p lib _ _ d' v' trace (by omega) (Nat.lt_succ_self _)

/-! ## The option loop of `main` -/

theorem main_switch_cases (L : Nat) (opt : Char) (optarg : Option (List Char)) (v : Vars)
    (trace : List Event)
    (h : ((opt = 'n' ∨ opt = 'w') ∧ optarg ≠ none) ∨ opt = 'd' ∨
      ((opt = 'r' ∨ opt = 'h' ∨ opt = '?') ∧ optarg = none)) :
    (∃ s, opt = 'n' ∧ optarg = some s ∧ main_switch L opt optarg v trace =
        .ok { v with result := (parse_int L s v.register_number).1,
                     register_number := (parse_int L s v.register_number).2 }) ∨
      (∃ s, opt = 'w' ∧ optarg = some s ∧ main_switch L opt optarg v trace =
        .ok { v with write := true, result := (parse_int L s v.register_value).1,
                     register_value := (parse_int L s v.register_value).2 }) ∨
      (opt = 'r' ∧ main_switch L opt optarg v trace = .ok { v with read := true }) ∨
      (opt = 'd' ∧ main_switch L opt optarg v trace = .ok { v with serial_number := optarg }) ∨
      ((opt = 'h' ∨ opt = '?') ∧
        main_switch L opt optarg v trace = .error (.exit EXIT_SUCCESS (trace ++ usage))) := by
  rcases h with ⟨rfl | rfl, ha⟩ | rfl | ⟨rfl | rfl | rfl, -⟩
  · obtain ⟨s, rfl⟩ := Option.ne_none_iff_exists'.mp ha
    exact Or.inl ⟨s, rfl, rfl, rfl⟩
  · obtain ⟨s, rfl⟩ := Option.ne_none_iff_exists'.mp ha
    exact Or.inr (Or.inl ⟨s, rfl, rfl, rfl⟩)
  · exact Or.inr (Or.inr (Or.inr (Or.inl ⟨rfl, rfl⟩)))
  · exact Or.inr (Or.inr (Or.inl ⟨rfl, rfl⟩))
  · exact Or.inr (Or.inr (Or.inr (Or.inr ⟨Or.inl rfl, rfl⟩)))
  · exact Or.inr (Or.inr (Or.inr (Or.inr ⟨Or.inr rfl, rfl⟩)))

theorem parse_int_status (L : Nat) (s : List Char) (value : Nat) :
    (parse_int L s value).1 = HACKRF_SUCCESS ∨
      parse_int L s value = (HACKRF_ERROR_INVALID_PARAM, value) := by
  rw [parse_int_result]
  split
  · exact Or.inl rfl
  · exact Or.inr rfl

theorem parse_int_any_value (L : Nat) (s : List Char) (value value' n : Nat)
    (h : parse_int L s value = (HACKRF_SUCCESS, n)) :
    parse_int L s value' = (HACKRF_SUCCESS, n) := by
  rw [parse_int_result] at h ⊢
  split at h
  · rename_i hc
    rw [if_pos hc]
    exact h
  · simp [HACKRF_ERROR_INVALID_PARAM, HACKRF_SUCCESS] at h

/-- The ways the option loop ends: `getopt_long` reports `EOF`; or `main`
returns success after the usage text (help, and every option that
`getopt_long` answers with `?`); or it returns failure after the argument
error line and the usage text. -/
theorem main_loop_outcome (L : Nat) (p : Bool) (lib : Driver) (fuel : Nat) (d : getopt_data)
    (v : Vars) (trace : List Event) (hf : scan_size d < fuel) (hv : v.result = HACKRF_SUCCESS) :
    (∃ v', main_loop L p lib fuel d v trace = .finished v' ∧ v'.result = HACKRF_SUCCESS) ∨
      main_loop L p lib fuel d v trace = .stop (.exit EXIT_SUCCESS (trace ++ usage)) ∨
      main_loop L p lib fuel d v trace = .stop (.exit EXIT_FAILURE
        (trace ++ [.stdout ("argument error: " ++ fmt_error lib HACKRF_ERROR_INVALID_PARAM)]
          ++ usage)) := by
  induction fuel generalizing d v with
  | zero => omega
  | succ n ih =>
    rw [main_loop]
    rcases hg : getopt_long p d with ⟨_ | ⟨opt, optarg⟩, d'⟩
    · exact Or.inl ⟨v, rfl, hv⟩
    · dsimp only
      have hlt := getopt_long_size p d _ d' hg
      have hn : scan_size d' < n := by omega
      rcases main_switch_cases L opt optarg v trace (getopt_long_shape p d _ d' hg) with
        ⟨s, -, -, hs⟩ | ⟨s, -, -, hs⟩ | ⟨-, hs⟩ | ⟨-, hs⟩ | ⟨-, hs⟩
      · rw [hs]
        dsimp only
        rcases parse_int_status L s v.register_number with hok | hbad
        · rw [if_neg (not_not.mpr hok)]
          exact ih d' _ hn hok
        · rw [hbad]
          exact Or.inr (Or.inr (by simp [HACKRF_ERROR_INVALID_PARAM, HACKRF_SUCCESS]))
      · rw [hs]
        dsimp only
        rcases parse_int_status L s v.register_value with hok | hbad
        · rw [if_neg (not_not.mpr hok)]
          exact ih d' _ hn hok
        · rw [hbad]
          exact Or.inr (Or.inr (by simp [HACKRF_ERROR_INVALID_PARAM, HACKRF_SUCCESS]))
      · rw [hs]
        dsimp only
        rw [if_neg (not_not.mpr hv)]
        exact ih d' _ hn hv
      · rw [hs]
        dsimp only
        rw [if_neg (not_not.mpr hv)]
        exact ih d' _ hn hv
      · rw [hs]
        exact Or.inr (Or.inl rfl)

/-! ## `main` after the options -/

theorem main_after_options_write (lib : Driver) (v : Vars) (hw : v.write = true)
    (hr : v.read = false) (hopen : lib.hackrf_open_by_serial v.serial_number = 0) :
    main_after_options lib v [.hackrf_init] =
      write_outcome lib v.serial_number v.register_number v.register_value := by
  unfold main_after_options write_outcome write_register close_outcome
  simp only [hw, hr, hopen, HACKRF_SUCCESS]
  by_cases h1 : lib.hackrf_rffc5071_write (v.register_number % 256) v.register_value = 0
  · by_cases h2 : lib.hackrf_close = 0 <;> simp [h1, h2]
  · simp [h1]

theorem main_after_options_read (lib : Driver) (v : Vars) (hw : v.write = false)
    (hr : v.read = true) (hn : v.register_number ≠ REGISTER_INVALID)
    (hopen : lib.hackrf_open_by_serial v.serial_number = 0) :
    main_after_options lib v [.hackrf_init] =
      read_outcome lib v.serial_number v.register_number := by
  unfold main_after_options read_outcome dump_register close_outcome
  simp only [hw, hr, hopen, hn, HACKRF_SUCCESS]
  by_cases h1 : (lib.hackrf_rffc5071_read (v.register_number % 256)).1 = 0
  · by_cases h2 : lib.hackrf_close = 0 <;> simp [h1, h2]
  · simp [h1]

/-! ## Runs of `main` on the command lines of the specification -/

theorem getopt_long_n (p : Bool) (tok : List Char) (rest : List (List Char)) :
    getopt_long p ⟨[], ['-', 'n'] :: tok :: rest⟩ = (some ('n', some tok), ⟨[], rest⟩) := by
  cases p <;> rfl

theorem getopt_long_w (p : Bool) (tok : List Char) (rest : List (List Char)) :
    getopt_long p ⟨[], ['-', 'w'] :: tok :: rest⟩ = (some ('w', some tok), ⟨[], rest⟩) := by
  cases p <;> rfl

theorem getopt_long_r (p : Bool) (rest : List (List Char)) :
    getopt_long p ⟨[], ['-', 'r'] :: rest⟩ = (some ('r', none), ⟨[], rest⟩) := by
  cases p <;> rfl

theorem getopt_long_end (p : Bool) :
    getopt_long p ⟨[], []⟩ = (none, ⟨[], []⟩) := by
  cases p <;> rfl

theorem main_loop_n (L : Nat) (p : Bool) (lib : Driver) (tok : List Char)
    (rest : List (List Char)) (v : Vars) (trace : List Event) (value n : Nat)
    (htok : parse_int L tok value = (HACKRF_SUCCESS, n)) :
    main_loop L p lib (scan_size ⟨[], ['-', 'n'] :: tok :: rest⟩ + 1)
        ⟨[], ['-', 'n'] :: tok :: rest⟩ v trace =
      main_loop L p lib (scan_size ⟨[], rest⟩ + 1) ⟨[], rest⟩
        { v with result := HACKRF_SUCCESS, register_number := n } trace := by
  have ht := parse_int_any_value L tok value v.register_number n htok
  have hs : main_switch L 'n' (some tok) v trace =
      .ok { v with result := (parse_int L tok v.register_number).1,
                   register_number := (parse_int L tok v.register_number).2 } := rfl
  rw [main_loop_step _ _ _ _ _ _ _ (Nat.lt_succ_self _), getopt_long_n]
  dsimp only
  rw [hs, ht]
  dsimp only
  rw [if_neg (not_not.mpr rfl)]

theorem main_loop_w (L : Nat) (p : Bool) (lib : Driver) (tok : List Char)
    (rest : List (List Char)) (v : Vars) (trace : List Event) (value n : Nat)
    (htok : parse_int L tok value = (HACKRF_SUCCESS, n)) :
    main_loop L p lib (scan_size ⟨[], ['-', 'w'] :: tok :: rest⟩ + 1)
        ⟨[], ['-', 'w'] :: tok :: rest⟩ v trace =
      main_loop L p lib (scan_size ⟨[], rest⟩ + 1) ⟨[], rest⟩
        { v with write := true, result := HACKRF_SUCCESS, register_value := n } trace := by
  have ht := parse_int_any_value L tok value v.register_value n htok
  have hs : main_switch L 'w' (some tok) v trace =
      .ok { v with write := true, result := (parse_int L tok v.register_value).1,
                   register_value := (parse_int L tok v.register_value).2 } := rfl
  rw [main_loop_step _ _ _ _ _ _ _ (Nat.lt_succ_self _), getopt_long_w]
  dsimp only
  rw [hs, ht]
  dsimp only
  rw [if_neg (not_not.mpr rfl)]

theorem main_loop_r (L : Nat) (p : Bool) (lib : Driver) (rest : List (List Char)) (v : Vars)
    (trace : List Event) (hv : v.result = HACKRF_SUCCESS) :
    main_loop L p lib (scan_size ⟨[], ['-', 'r'] :: rest⟩ + 1) ⟨[], ['-', 'r'] :: rest⟩ v trace =
      main_loop L p lib (scan_size ⟨[], rest⟩ + 1) ⟨[], rest⟩ { v with read := true } trace := by
  have hs : main_switch L 'r' none v trace = .ok { v with read := true } := rfl
  rw [main_loop_step _ _ _ _ _ _ _ (Nat.lt_succ_self _), getopt_long_r]
  dsimp only
  rw [hs]
  dsimp only
  rw [if_neg (not_not.mpr hv)]

theorem main_loop_end (L : Nat) (p : Bool) (lib : Driver) (v : Vars) (trace : List Event) :
    main_loop L p lib (scan_size ⟨[], []⟩ + 1) ⟨[], []⟩ v trace = .finished v := by
  rw [main_loop_step _ _ _ _ _ _ _ (Nat.lt_succ_self _), getopt_long_end]

theorem parse_options_n_r (L : Nat) (p : Bool) (lib : Driver) (prog tok : List Char)
    (value n : Nat) (hinit : lib.hackrf_init = 0)
    (htok : parse_int L tok value = (HACKRF_SUCCESS, n)) :
    parse_options L p lib [prog, ['-', 'n'], tok, ['-', 'r']] =
      .finished { register_number := n, register_value := 0, read := true, write := false,
                  serial_number := none, result := HACKRF_SUCCESS } := by
  unfold parse_options
  simp only [main_scan, List.drop, hinit]
  rw [main_loop_n L p lib tok _ _ _ value n htok, main_loop_r _ _ _ _ _ _ rfl, main_loop_end]
  rfl

theorem parse_options_r_n (L : Nat) (p : Bool) (lib : Driver) (prog tok : List Char)
    (value n : Nat) (hinit : lib.hackrf_init = 0)
    (htok : parse_int L tok value = (HACKRF_SUCCESS, n)) :
    parse_options L p lib [prog, ['-', 'r'], ['-', 'n'], tok] =
      .finished { register_number := n, register_value := 0, read := true, write := false,
                  serial_number := none, result := HACKRF_SUCCESS } := by
  unfold parse_options
  simp only [main_scan, List.drop, hinit]
  rw [main_loop_r _ _ _ _ _ _ rfl, main_loop_n L p lib tok _ _ _ value n htok, main_loop_end]
  rfl

theorem parse_options_w_n (L : Nat) (p : Bool) (lib : Driver) (prog tokv tokn : List Char)
    (value value' n v : Nat) (hinit : lib.hackrf_init = 0)
    (htokn : parse_int L tokn value = (HACKRF_SUCCESS, n))
    (htokv : parse_int L tokv value' = (HACKRF_SUCCESS, v)) :
    parse_options L p lib [prog, ['-', 'w'], tokv, ['-', 'n'], tokn] =
      .finished { register_number := n, register_value := v, read := false, write := true,
                  serial_number := none, result := HACKRF_SUCCESS } := by
  unfold parse_options
  simp only [main_scan, List.drop, hinit]
  rw [main_loop_w L p lib tokv _ _ _ value' v htokv, main_loop_n L p lib tokn _ _ _ value n htokn,
    main_loop_end]
  rfl

theorem parse_options_n_w (L : Nat) (p : Bool) (lib : Driver) (prog tokv tokn : List Char)
    (value value' n v : Nat) (hinit : lib.hackrf_init = 0)
    (htokn : parse_int L tokn value = (HACKRF_SUCCESS, n))
    (htokv : parse_int L tokv value' = (HACKRF_SUCCESS, v)) :
    parse_options L p lib [prog, ['-', 'n'], tokn, ['-', 'w'], tokv] =
      .finished { register_number := n, register_value := v, read := false, write := true,
                  serial_number := none, result := HACKRF_SUCCESS } := by
  unfold parse_options
  simp only [main_scan, List.drop, hinit]
  rw [main_loop_n L p lib tokn _ _ _ value n htokn, main_loop_w L p lib tokv _ _ _ value' v htokv,
    main_loop_end]
  rfl

theorem main_of_finished (L : Nat) (p : Bool) (lib : Driver) (argv : List (List Char)) (v : Vars)
    (hinit : lib.hackrf_init = 0) (hparse : parse_options L p lib argv = .finished v) :
    main L p lib argv = main_after_options lib v [.hackrf_init] := by
  unfold main
  simp only [hinit, hparse]
  rfl

/-- Claim C4, as the code has it: with `-n N` and `-r` (in either order), a
register number `N` other than 32767 as parsed by `parse_int`, and a device
that opens, `main` issues exactly one driver read, at the address `N`
truncated to 8 bits (`N % 256`, which is `N` when `N < 256`); on success it
prints `[N] -> 0xHEX` with that `N` and the value the driver returned. -/
theorem read_single_register (L : Nat) (p : Bool) (lib : Driver) (prog tok : List Char)
    (value n : Nat) (hinit : lib.hackrf_init = 0) (hopen : lib.hackrf_open_by_serial none = 0)
    (htok : parse_int L tok value = (HACKRF_SUCCESS, n)) (hn : n ≠ REGISTER_INVALID) :
    main L p lib [prog, ['-', 'n'], tok, ['-', 'r']] = read_outcome lib none n ∧
      main L p lib [prog, ['-', 'r'], ['-', 'n'], tok] = read_outcome lib none n ∧
      (∃ rest, calls_of (read_outcome lib none n).events =
          [.hackrf_init, .hackrf_open_by_serial none, .hackrf_rffc5071_read (n % 256)] ++ rest ∧
        ∀ e ∈ rest, e = .hackrf_close ∨ e = .hackrf_exit) ∧
      ((lib.hackrf_rffc5071_read (n % 256)).1 = HACKRF_SUCCESS →
        .stdout (read_line n (lib.hackrf_rffc5071_read (n % 256)).2) ∈
          (read_outcome lib none n).events) ∧
      (n < 256 → n % 256 = n) := by
  refine ⟨?_, ?_, ?_, ?_, fun h => Nat.mod_eq_of_lt h⟩
  · rw [main_of_finished L p lib _ _ hinit (parse_options_n_r L p lib prog tok value n hinit htok)]
    exact main_after_options_read lib _ rfl rfl hn hopen
  · rw [main_of_finished L p lib _ _ hinit (parse_options_r_n L p lib prog tok value n hinit htok)]
    exact main_after_options_read lib _ rfl rfl hn hopen
  · unfold read_outcome close_outcome
    split_ifs
    · exact ⟨[.hackrf_close, .hackrf_exit], by simp [Outcome.events, calls_of, is_print]⟩
    · exact ⟨[.hackrf_close], by simp [Outcome.events, calls_of, is_print]⟩
    · exact ⟨[], by simp [Outcome.events, calls_of, is_print]⟩
  · intro h
    unfold read_outcome close_outcome
    rw [if_pos h]
    split_ifs <;> simp [Outcome.events]

/-- Witness of `read_single_register`: `-n 5 -r` on a device whose register
5 holds 0x105. -/
theorem read_single_register_witness :
    main (2 ^ 63 - 1) false demo [['p'], ['-', 'n'], ['5'], ['-', 'r']] =
        read_outcome demo none 5 ∧
      main (2 ^ 63 - 1) false demo [['p'], ['-', 'r'], ['-', 'n'], ['5']] =
        read_outcome demo none 5 ∧
      (∃ rest, calls_of (read_outcome demo none 5).events =
          [.hackrf_init, .hackrf_open_by_serial none, .hackrf_rffc5071_read (5 % 256)] ++ rest ∧
        ∀ e ∈ rest, e = .hackrf_close ∨ e = .hackrf_exit) ∧
      ((demo.hackrf_rffc5071_read (5 % 256)).1 = HACKRF_SUCCESS →
        .stdout (read_line 5 (demo.hackrf_rffc5071_read (5 % 256)).2) ∈
          (read_outcome demo none 5).events) ∧
      (5 < 256 → 5 % 256 = 5) :=
  read_single_register (2 ^ 63 - 1) false demo ['p'] ['5'] 0 5 (by decide) (by decide)
    (by decide) (by decide)

/-- Claim C4 fails as stated: `-n 256 -r` reads the register at address 0,
not 256 (and prints the value as that of register 256); `-n 32767 -r` reads
the 31 registers 0 to 30, not the register 32767. -/
theorem read_single_register_truncated :
    parse_int (2 ^ 63 - 1) "256".toList 0 = (HACKRF_SUCCESS, 256) ∧
      main (2 ^ 63 - 1) false demo (cmd ["hackrf_rffc5071", "-n", "256", "-r"]) =
        .exit EXIT_SUCCESS [.hackrf_init, .hackrf_open_by_serial none, .hackrf_rffc5071_read 0,
          .stdout "[256] -> 0x100\n", .hackrf_close, .hackrf_exit] ∧
      parse_int (2 ^ 63 - 1) "32767".toList 0 = (HACKRF_SUCCESS, 32767) ∧
      calls_of (main (2 ^ 63 - 1) false demo
          (cmd ["hackrf_rffc5071", "-n", "32767", "-r"])).events =
        [.hackrf_init, .hackrf_open_by_serial none] ++
          (List.range 31).map Event.hackrf_rffc5071_read ++ [.hackrf_close, .hackrf_exit] := by
  decide

/-- Claim C6, as the code has it: with `-w V` and `-n N` (in either order),
`N` and `V` as parsed by `parse_int`, and a device that opens, `main` issues
exactly one driver write, at the address `N` truncated to 8 bits (`N % 256`,
which is `N` when `N < 256`) and with value `V`, and no driver read;
`write_register` returns the status of the driver and on success prints
`0xHEX -> [N]` with that `V` and `N`. -/
theorem write_register_once (L : Nat) (p : Bool) (lib : Driver) (prog tokv tokn : List Char)
    (value value' n v : Nat) (hinit : lib.hackrf_init = 0)
    (hopen : lib.hackrf_open_by_serial none = 0)
    (htokn : parse_int L tokn value = (HACKRF_SUCCESS, n))
    (htokv : parse_int L tokv value' = (HACKRF_SUCCESS, v)) :
    main L p lib [prog, ['-', 'w'], tokv, ['-', 'n'], tokn] = write_outcome lib none n v ∧
      main L p lib [prog, ['-', 'n'], tokn, ['-', 'w'], tokv] = write_outcome lib none n v ∧
      (∃ rest, calls_of (write_outcome lib none n v).events =
          [.hackrf_init, .hackrf_open_by_serial none, .hackrf_rffc5071_write (n % 256) v]
            ++ rest ∧
        ∀ e ∈ rest, e = .hackrf_close ∨ e = .hackrf_exit) ∧
      (write_register lib n v).1 = lib.hackrf_rffc5071_write (n % 256) v ∧
      (lib.hackrf_rffc5071_write (n % 256) v = HACKRF_SUCCESS →
        .stdout (write_line n v) ∈ (write_outcome lib none n v).events) ∧
      (n < 256 → n % 256 = n) := by
  refine ⟨?_, ?_, ?_, ?_, ?_, fun h => Nat.mod_eq_of_lt h⟩
  · rw [main_of_finished L p lib _ _ hinit
      (parse_options_w_n L p lib prog tokv tokn value value' n v hinit htokn htokv)]
    exact main_after_options_write lib _ rfl rfl hopen
  · rw [main_of_finished L p lib _ _ hinit
      (parse_options_n_w L p lib prog tokv tokn value value' n v hinit htokn htokv)]
    exact main_after_options_write lib _ rfl rfl hopen
  · unfold write_outcome close_outcome
    split_ifs
    · exact ⟨[.hackrf_close, .hackrf_exit], by simp [Outcome.events, calls_of, is_print]⟩
    · exact ⟨[.hackrf_close], by simp [Outcome.events, calls_of, is_print]⟩
    · exact ⟨[], by simp [Outcome.events, calls_of, is_print]⟩
  · unfold write_register
    dsimp only
    split_ifs <;> rfl
  · intro h
    unfold write_outcome close_outcome
    rw [if_pos h]
    split_ifs <;> simp [Outcome.events]

/-- Witness of `write_register_once`: `-w 0x200 -n 10`. -/
theorem write_register_once_witness :
    main (2 ^ 63 - 1) false demo [['p'], ['-', 'w'], "0x200".toList, ['-', 'n'], "10".toList] =
        write_outcome demo none 10 512 ∧
      main (2 ^ 63 - 1) false demo [['p'], ['-', 'n'], "10".toList, ['-', 'w'], "0x200".toList] =
        write_outcome demo none 10 512 ∧
      (∃ rest, calls_of (write_outcome demo none 10 512).events =
          [.hackrf_init, .hackrf_open_by_serial none, .hackrf_rffc5071_write (10 % 256) 512]
            ++ rest ∧
        ∀ e ∈ rest, e = .hackrf_close ∨ e = .hackrf_exit) ∧
      (write_register demo 10 512).1 = demo.hackrf_rffc5071_write (10 % 256) 512 ∧
      (demo.hackrf_rffc5071_write (10 % 256) 512 = HACKRF_SUCCESS →
        .stdout (write_line 10 512) ∈ (write_outcome demo none 10 512).events) ∧
      (10 < 256 → 10 % 256 = 10) :=
  write_register_once (2 ^ 63 - 1) false demo ['p'] "0x200".toList "10".toList 0 0 10 512
    (by decide) (by decide) (by decide) (by decide)

/-- Claim C6 fails as stated: `-w 0x200 -n 256` writes the register at
address 0, not 256. -/
theorem write_register_truncated :
    parse_int (2 ^ 63 - 1) "256".toList 0 = (HACKRF_SUCCESS, 256) ∧
      main (2 ^ 63 - 1) false demo (cmd ["hackrf_rffc5071", "-w", "0x200", "-n", "256"]) =
        .exit EXIT_SUCCESS [.hackrf_init, .hackrf_open_by_serial none,
          .hackrf_rffc5071_write 0 512, .stdout "0x200 -> [256]\n", .hackrf_close,
          .hackrf_exit] := by
  decide

/-! ## The mode check -/

theorem main_after_options_dump (lib : Driver) (v : Vars) (hw : v.write = false)
    (hr : v.read = true) (hn : v.register_number = REGISTER_INVALID)
    (hopen : lib.hackrf_open_by_serial v.serial_number = 0) :
    main_after_options lib v [.hackrf_init] = dump_outcome lib v.serial_number := by
  unfold main_after_options dump_outcome close_outcome
  simp only [hw, hr, hopen, hn, HACKRF_SUCCESS]
  rcases dump_registers lib with ⟨result, done⟩
  by_cases h1 : result = 0
  · by_cases h2 : lib.hackrf_close = 0 <;> simp [h1, h2]
  · simp [h1]

theorem main_after_options_open (lib : Driver) (v : Vars) (hmode : v.read ≠ v.write) :
    .hackrf_open_by_serial v.serial_number ∈ (main_after_options lib v [.hackrf_init]).events := by
  by_cases hopen : lib.hackrf_open_by_serial v.serial_number = 0
  · rcases hr : v.read with _ | _ <;> rcases hw : v.write with _ | _
    · exact absurd (hr.trans hw.symm) hmode
    · rw [main_after_options_write lib v hw hr hopen]
      unfold write_outcome close_outcome
      split_ifs <;> simp [Outcome.events]
    · by_cases hn : v.register_number = REGISTER_INVALID
      · rw [main_after_options_dump lib v hw hr hn hopen]
        unfold dump_outcome close_outcome
        split_ifs <;> simp [Outcome.events]
      · rw [main_after_options_read lib v hw hr hn hopen]
        unfold read_outcome close_outcome
        split_ifs <;> simp [Outcome.events]
    · exact absurd (hr.trans hw.symm) hmode
  · unfold main_after_options
    rcases hr : v.read with _ | _ <;> rcases hw : v.write with _ | _
    · exact absurd (hr.trans hw.symm) hmode
    · simp [hopen, Outcome.events]
    · simp [hopen, Outcome.events]
    · exact absurd (hr.trans hw.symm) hmode

theorem usage_prints : ∀ e ∈ usage, is_device_call e = false := by
  decide

/-- Claim C3: when the option loop of `main` runs to the end of the
arguments (the library initialised, no help, no argument error), then with
both modes set or with neither `main` returns the failure status after a
message on standard error and the usage text, and its trace has no device
call (open, read, write, close); a device call occurs exactly when one of the
two modes is set, and then the device is opened. -/
theorem modes_checked_before_open (L : Nat) (p : Bool) (lib : Driver) (argv : List (List Char))
    (v : Vars) (hinit : lib.hackrf_init = 0)
    (hparse : parse_options L p lib argv = .finished v) :
    (v.read = v.write →
        (∃ message,
          main L p lib argv = .exit EXIT_FAILURE ([.hackrf_init, .stderr message] ++ usage)) ∧
        ∀ e ∈ (main L p lib argv).events, is_device_call e = false) ∧
      ((∃ e ∈ (main L p lib argv).events, is_device_call e = true) ↔ v.read ≠ v.write) ∧
      (v.read ≠ v.write →
        .hackrf_open_by_serial v.serial_number ∈ (main L p lib argv).events) := by
  rw [main_of_finished L p lib argv v hinit hparse]
  have hsame : v.read = v.write →
      (∃ message, main_after_options lib v [.hackrf_init] =
        .exit EXIT_FAILURE ([.hackrf_init, .stderr message] ++ usage)) ∧
      ∀ e ∈ (main_after_options lib v [.hackrf_init]).events, is_device_call e = false := by
    intro h
    unfold main_after_options
    rcases hr : v.read with _ | _ <;> rcases hw : v.write with _ | _
    · refine ⟨⟨"Specify either read or write option.\n", by simp⟩, ?_⟩
      simp only [Bool.false_eq_true, and_self, or_self, not_false_eq_true, if_true, if_false,
        Outcome.events]
      intro e he
      simp only [List.append_assoc, List.mem_append, List.mem_singleton] at he
      rcases he with rfl | rfl | he
      · rfl
      · rfl
      · exact usage_prints e he
    · rw [hr, hw] at h
      exact absurd h (by decide)
    · rw [hr, hw] at h
      exact absurd h (by decide)
    · refine ⟨⟨"Read and write options are mutually exclusive.\n", by simp⟩, ?_⟩
      simp only [and_self, if_true, Outcome.events]
      intro e he
      simp only [List.append_assoc, List.mem_append, List.mem_singleton] at he
      rcases he with rfl | rfl | he
      · rfl
      · rfl
      · exact usage_prints e he
  refine ⟨hsame, ⟨fun ⟨e, he, hd⟩ hrw => ?_, fun h => ?_⟩, main_after_options_open lib v⟩
  · have := (hsame hrw).2 e he
    rw [this] at hd
    exact absurd hd (by decide)
  · exact ⟨_, main_after_options_open lib v h, rfl⟩

/-- Witness of `modes_checked_before_open`: `-r -w 3` sets both modes. -/
theorem modes_checked_before_open_witness :
    (true = true →
        (∃ message,
          main (2 ^ 63 - 1) false demo (cmd ["hackrf_rffc5071", "-r", "-w", "3"]) =
            .exit EXIT_FAILURE ([.hackrf_init, .stderr message] ++ usage)) ∧
        ∀ e ∈ (main (2 ^ 63 - 1) false demo (cmd ["hackrf_rffc5071", "-r", "-w", "3"])).events,
          is_device_call e = false) ∧
      ((∃ e ∈ (main (2 ^ 63 - 1) false demo (cmd ["hackrf_rffc5071", "-r", "-w", "3"])).events,
          is_device_call e = true) ↔ true ≠ true) ∧
      (true ≠ true →
        .hackrf_open_by_serial none ∈
          (main (2 ^ 63 - 1) false demo (cmd ["hackrf_rffc5071", "-r", "-w", "3"])).events) :=
  modes_checked_before_open (2 ^ 63 - 1) false demo (cmd ["hackrf_rffc5071", "-r", "-w", "3"])
    { register_number := REGISTER_INVALID, register_value := 3, read := true, write := true,
      serial_number := none, result := HACKRF_SUCCESS } (by decide) (by decide)

/-! ## What the option loop leaves in the variables -/

theorem main_loop_register_number (L : Nat) (p : Bool) (lib : Driver) (fuel : Nat)
    (d : getopt_data) (v v' : Vars) (trace : List Event)
    (hres : main_loop L p lib fuel d v trace = .finished v')
    (hn : ∀ o ∈ getopt_all p fuel d, o.1 ≠ 'n') :
    v'.register_number = v.register_number := by
  induction fuel generalizing d v with
  | zero => simp [main_loop] at hres
  | succ n ih =>
    rw [main_loop] at hres
    rw [getopt_all] at hn
    rcases hg : getopt_long p d with ⟨_ | ⟨opt, optarg⟩, d'⟩
    · rw [hg] at hres
      simp only [Parsed.finished.injEq] at hres
      rw [hres]
    · rw [hg] at hres hn
      dsimp only at hres hn
      have hhead := hn (opt, optarg) (List.mem_cons_self _ _)
      have htail : ∀ o ∈ getopt_all p n d', o.1 ≠ 'n' :=
        fun o ho => hn o (List.mem_cons_of_mem _ ho)
      rcases main_switch_cases L opt optarg v trace (getopt_long_shape p d _ d' hg) with
        ⟨s, ho, -, hs⟩ | ⟨s, -, -, hs⟩ | ⟨-, hs⟩ | ⟨-, hs⟩ | ⟨-, hs⟩
      · exact absurd ho hhead
      · rw [hs] at hres
        dsimp only at hres
        split at hres
        · simp at hres
        · have h1 := ih d' _ hres htail
          exact h1
      · rw [hs] at hres
        dsimp only at hres
        split at hres
        · simp at hres
        · have h1 := ih d' _ hres htail
          exact h1
      · rw [hs] at hres
        dsimp only at hres
        split at hres
        · simp at hres
        · have h1 := ih d' _ hres htail
          exact h1
      · rw [hs] at hres
        simp at hres

theorem main_loop_register_value (L : Nat) (p : Bool) (lib : Driver) (fuel : Nat)
    (d : getopt_data) (v v' : Vars) (trace : List Event)
    (hres : main_loop L p lib fuel d v trace = .finished v') :
    (v'.write = v.write ∧ v'.register_value = v.register_value) ∨
      (v'.write = true ∧ ∃ tok value, ('w', some tok) ∈ getopt_all p fuel d ∧
        parse_int L tok value = (HACKRF_SUCCESS, v'.register_value)) := by
  induction fuel generalizing d v with
  | zero => simp [main_loop] at hres
  | succ n ih =>
    rw [main_loop] at hres
    rw [getopt_all]
    rcases hg : getopt_long p d with ⟨_ | ⟨opt, optarg⟩, d'⟩
    · rw [hg] at hres
      simp only [Parsed.finished.injEq] at hres
      rw [hres]
      exact Or.inl ⟨rfl, rfl⟩
    · rw [hg] at hres
      dsimp only at hres ⊢
      have later : ∀ v1 : Vars, main_loop L p lib n d' v1 trace = .finished v' →
          v1.write = v.write → v1.register_value = v.register_value →
          (v'.write = v.write ∧ v'.register_value = v.register_value) ∨
            (v'.write = true ∧ ∃ tok value,
              ('w', some tok) ∈ (opt, optarg) :: getopt_all p n d' ∧
              parse_int L tok value = (HACKRF_SUCCESS, v'.register_value)) := by
        intro v1 h1 hw hv
        rcases ih d' v1 h1 with ⟨h2, h3⟩ | ⟨h2, tok, value, hm, ht⟩
        · exact Or.inl ⟨h2.trans hw, h3.trans hv⟩
        · exact Or.inr ⟨h2, tok, value, List.mem_cons_of_mem _ hm, ht⟩
      rcases main_switch_cases L opt optarg v trace (getopt_long_shape p d _ d' hg) with
        ⟨s, -, -, hs⟩ | ⟨s, ho, ha, hs⟩ | ⟨-, hs⟩ | ⟨-, hs⟩ | ⟨-, hs⟩
      · rw [hs] at hres
        dsimp only at hres
        split at hres
        · simp at hres
        · exact later _ hres rfl rfl
      · rw [hs] at hres
        dsimp only at hres
        split at hres
        · simp at hres
        · rename_i hok
          have hok' : (parse_int L s v.register_value).1 = HACKRF_SUCCESS := not_not.mp hok
          subst ho ha
          rcases ih d' _ hres with ⟨h2, h3⟩ | ⟨h2, tok, value, hm, ht⟩
          · refine Or.inr ⟨h2, s, v.register_value, List.mem_cons_self _ _, ?_⟩
            exact Prod.ext hok' h3.symm
          · exact Or.inr ⟨h2, tok, value, List.mem_cons_of_mem _ hm, ht⟩
      · rw [hs] at hres
        dsimp only at hres
        split at hres
        · simp at hres
        · exact later _ hres rfl rfl
      · rw [hs] at hres
        dsimp only at hres
        split at hres
        · simp at hres
        · exact later _ hres rfl rfl
      · rw [hs] at hres
        simp at hres

/-- Claim C10: when the option loop ends with write mode alone selected and
`getopt_long` has found no `-n` option in the arguments, the register number
is still the sentinel `REGISTER_INVALID` = 32767 and `main` does not reject
the command: after a successful open it issues one driver write, at the
address 32767 mod 256 = 255, with the value that `parse_int` accepted for a
`-w` option; the sentinel is not tested on this path. -/
theorem write_without_register (L : Nat) (p : Bool) (lib : Driver) (argv : List (List Char))
    (v : Vars) (hinit : lib.hackrf_init = 0)
    (hparse : parse_options L p lib argv = .finished v)
    (hw : v.write = true) (hr : v.read = false)
    (hn : ∀ o ∈ options_of p argv, o.1 ≠ 'n')
    (hopen : lib.hackrf_open_by_serial v.serial_number = 0) :
    v.register_number = REGISTER_INVALID ∧ REGISTER_INVALID = 32767 ∧
      (∃ tok value, ('w', some tok) ∈ options_of p argv ∧
        parse_int L tok value = (HACKRF_SUCCESS, v.register_value)) ∧
      main L p lib argv = write_outcome lib v.serial_number REGISTER_INVALID v.register_value ∧
      (∃ rest, calls_of (main L p lib argv).events =
          [.hackrf_init, .hackrf_open_by_serial v.serial_number,
            .hackrf_rffc5071_write 255 v.register_value] ++ rest ∧
        ∀ e ∈ rest, e = .hackrf_close ∨ e = .hackrf_exit) := by
  have hnum : v.register_number = REGISTER_INVALID :=
    main_loop_register_number L p lib _ _ _ v _ hparse hn
  have hval := main_loop_register_value L p lib _ _ _ v _ hparse
  have hmain : main L p lib argv =
      write_outcome lib v.serial_number REGISTER_INVALID v.register_value := by
    rw [main_of_finished L p lib argv v hinit hparse, main_after_options_write lib v hw hr hopen,
      hnum]
  refine ⟨hnum, rfl, ?_, hmain, ?_⟩
  · rcases hval with ⟨h1, -⟩ | ⟨-, h2⟩
    · rw [hw] at h1
      simp [main_vars] at h1
    · exact h2
  · rw [hmain]
    unfold write_outcome close_outcome
    have h255 : REGISTER_INVALID % 256 = 255 := by decide
    rw [h255]
    split_ifs
    · exact ⟨[.hackrf_close, .hackrf_exit], by simp [Outcome.events, calls_of, is_print]⟩
    · exact ⟨[.hackrf_close], by simp [Outcome.events, calls_of, is_print]⟩
    · exact ⟨[], by simp [Outcome.events, calls_of, is_print]⟩

/-- Witness of `write_without_register`: `-w 3` alone writes 3 to address 255. -/
theorem write_without_register_witness :
    REGISTER_INVALID = REGISTER_INVALID ∧ REGISTER_INVALID = 32767 ∧
      (∃ tok value, ('w', some tok) ∈ options_of false (cmd ["hackrf_rffc5071", "-w", "3"]) ∧
        parse_int (2 ^ 63 - 1) tok value = (HACKRF_SUCCESS, 3)) ∧
      main (2 ^ 63 - 1) false demo (cmd ["hackrf_rffc5071", "-w", "3"]) =
        write_outcome demo none REGISTER_INVALID 3 ∧
      (∃ rest, calls_of (main (2 ^ 63 - 1) false demo
            (cmd ["hackrf_rffc5071", "-w", "3"])).events =
          [.hackrf_init, .hackrf_open_by_serial none, .hackrf_rffc5071_write 255 3] ++ rest ∧
        ∀ e ∈ rest, e = .hackrf_close ∨ e = .hackrf_exit) :=
  write_without_register (2 ^ 63 - 1) false demo (cmd ["hackrf_rffc5071", "-w", "3"])
    { register_number := REGISTER_INVALID, register_value := 3, read := false, write := true,
      serial_number := none, result := HACKRF_SUCCESS }
    (by decide) (by decide) (by decide) (by decide) (by decide) (by decide)

/-! ## Help and argument errors -/

theorem main_loop_help (L : Nat) (p : Bool) (lib : Driver) (fuel : Nat) (d : getopt_data)
    (v : Vars) (trace : List Event) (pre post : List (Char × Option (List Char)))
    (e : Char × Option (List Char)) (hv : v.result = HACKRF_SUCCESS)
    (hsplit : getopt_all p fuel d = pre ++ e :: post) (hhelp : e.1 = 'h' ∨ e.1 = '?') :
    (main_loop L p lib fuel d v trace = .stop (.exit EXIT_SUCCESS (trace ++ usage)) ∨
        main_loop L p lib fuel d v trace = .stop (.exit EXIT_FAILURE
          (trace ++ [.stdout ("argument error: " ++ fmt_error lib HACKRF_ERROR_INVALID_PARAM)]
            ++ usage))) ∧
      ((∀ o ∈ pre, ∀ tok, o.2 = some tok → (o.1 = 'n' ∨ o.1 = 'w') →
          ∀ value, (parse_int L tok value).1 = HACKRF_SUCCESS) →
        main_loop L p lib fuel d v trace = .stop (.exit EXIT_SUCCESS (trace ++ usage))) := by
  induction fuel generalizing d v pre with
  | zero => simp [getopt_all] at hsplit
  | succ n ih =>
    rw [main_loop]
    rw [getopt_all] at hsplit
    rcases hg : getopt_long p d with ⟨_ | ⟨opt, optarg⟩, d'⟩
    · rw [hg] at hsplit
      simp at hsplit
    · rw [hg] at hsplit
      dsimp only at hsplit ⊢
      cases pre with
      | nil =>
        simp only [List.nil_append, List.cons.injEq] at hsplit
        obtain ⟨he, -⟩ := hsplit
        subst he
        have hs : main_switch L opt optarg v trace =
            .error (.exit EXIT_SUCCESS (trace ++ usage)) := by
          rcases hhelp with h | h <;> (dsimp only at h; subst h; rfl)
        rw [hs]
        exact ⟨Or.inl rfl, fun _ => rfl⟩
      | cons o pre' =>
        simp only [List.cons_append, List.cons.injEq] at hsplit
        obtain ⟨ho, htail⟩ := hsplit
        subst ho
        have step : ∀ v1 : Vars, v1.result = HACKRF_SUCCESS →
            (main_loop L p lib n d' v1 trace = .stop (.exit EXIT_SUCCESS (trace ++ usage)) ∨
              main_loop L p lib n d' v1 trace = .stop (.exit EXIT_FAILURE
                (trace ++
                  [.stdout ("argument error: " ++ fmt_error lib HACKRF_ERROR_INVALID_PARAM)]
                  ++ usage))) ∧
            ((∀ o ∈ (opt, optarg) :: pre', ∀ tok, o.2 = some tok → (o.1 = 'n' ∨ o.1 = 'w') →
                ∀ value, (parse_int L tok value).1 = HACKRF_SUCCESS) →
              main_loop L p lib n d' v1 trace = .stop (.exit EXIT_SUCCESS (trace ++ usage))) := by
          intro v1 h1
          obtain ⟨ih1, ih2⟩ := ih d' v1 pre' h1 htail
          exact ⟨ih1, fun hall => ih2 (fun o ho => hall o (List.mem_cons_of_mem _ ho))⟩
        rcases main_switch_cases L opt optarg v trace (getopt_long_shape p d _ d' hg) with
          ⟨s, ho, ha, hs⟩ | ⟨s, ho, ha, hs⟩ | ⟨-, hs⟩ | ⟨-, hs⟩ | ⟨-, hs⟩
        · rw [hs]
          dsimp only
          rcases parse_int_status L s v.register_number with hok | hbad
          · rw [if_neg (not_not.mpr hok)]
            exact step _ hok
          · rw [hbad]
            refine ⟨Or.inr (by simp [HACKRF_ERROR_INVALID_PARAM, HACKRF_SUCCESS]), fun hall => ?_⟩
            have := hall (opt, optarg) (List.mem_cons_self _ _) s ha (Or.inl ho)
              v.register_number
            rw [hbad] at this
            simp [HACKRF_ERROR_INVALID_PARAM, HACKRF_SUCCESS] at this
        · rw [hs]
          dsimp only
          rcases parse_int_status L s v.register_value with hok | hbad
          · rw [if_neg (not_not.mpr hok)]
            exact step _ hok
          · rw [hbad]
            refine ⟨Or.inr (by simp [HACKRF_ERROR_INVALID_PARAM, HACKRF_SUCCESS]), fun hall => ?_⟩
            have := hall (opt, optarg) (List.mem_cons_self _ _) s ha (Or.inr ho)
              v.register_value
            rw [hbad] at this
            simp [HACKRF_ERROR_INVALID_PARAM, HACKRF_SUCCESS] at this
        · rw [hs]
          dsimp only
          rw [if_neg (not_not.mpr hv)]
          exact step _ hv
        · rw [hs]
          dsimp only
          rw [if_neg (not_not.mpr hv)]
          exact step _ hv
        · rw [hs]
          exact ⟨Or.inl rfl, fun _ => rfl⟩

theorem parse_int_status_any_value (L : Nat) (s : List Char) (value value' : Nat)
    (h : (parse_int L s value).1 = HACKRF_SUCCESS) :
    (parse_int L s value').1 = HACKRF_SUCCESS := by
  rw [parse_int_result] at h ⊢
  split at h
  · rename_i hc
    rw [if_pos hc]
  · simp [HACKRF_ERROR_INVALID_PARAM, HACKRF_SUCCESS] at h

theorem main_loop_rejected (L : Nat) (p : Bool) (lib : Driver) (fuel : Nat) (d : getopt_data)
    (v : Vars) (trace : List Event) (pre post : List (Char × Option (List Char)))
    (hv : v.result = HACKRF_SUCCESS) (hsplit : getopt_all p fuel d = pre ++ post)
    (hnohelp : ∀ o ∈ pre, o.1 ≠ 'h' ∧ o.1 ≠ '?')
    (hbad : ∃ o ∈ pre, ∃ tok, o.2 = some tok ∧ (o.1 = 'n' ∨ o.1 = 'w') ∧
      ∃ value, (parse_int L tok value).1 ≠ HACKRF_SUCCESS) :
    main_loop L p lib fuel d v trace = .stop (.exit EXIT_FAILURE
      (trace ++ [.stdout ("argument error: " ++ fmt_error lib HACKRF_ERROR_INVALID_PARAM)]
        ++ usage)) := by
  induction fuel generalizing d v pre with
  | zero =>
    obtain ⟨o, ho, -⟩ := hbad
    rw [getopt_all] at hsplit
    have : pre = [] := (List.append_eq_nil.mp hsplit.symm).1
    rw [this] at ho
    simp at ho
  | succ n ih =>
    rw [main_loop]
    rw [getopt_all] at hsplit
    rcases hg : getopt_long p d with ⟨_ | ⟨opt, optarg⟩, d'⟩
    · rw [hg] at hsplit
      dsimp only at hsplit
      obtain ⟨o, ho, -⟩ := hbad
      have : pre = [] := (List.append_eq_nil.mp hsplit.symm).1
      rw [this] at ho
      simp at ho
    · rw [hg] at hsplit
      dsimp only at hsplit ⊢
      cases pre with
      | nil =>
        obtain ⟨o, ho, -⟩ := hbad
        simp at ho
      | cons o pre' =>
        simp only [List.cons_append, List.cons.injEq] at hsplit
        obtain ⟨ho, htail⟩ := hsplit
        subst ho
        have hhead := hnohelp (opt, optarg) (List.mem_cons_self _ _)
        have hnohelp' : ∀ o ∈ pre', o.1 ≠ 'h' ∧ o.1 ≠ '?' :=
          fun o ho => hnohelp o (List.mem_cons_of_mem _ ho)
        have later : ∀ v1 : Vars, v1.result = HACKRF_SUCCESS →
            (∀ tok, optarg = some tok → (opt = 'n' ∨ opt = 'w') →
              ∀ value, (parse_int L tok value).1 = HACKRF_SUCCESS) →
            main_loop L p lib n d' v1 trace = .stop (.exit EXIT_FAILURE
              (trace ++
                [.stdout ("argument error: " ++ fmt_error lib HACKRF_ERROR_INVALID_PARAM)]
                ++ usage)) := by
          intro v1 h1 hacc
          refine ih d' v1 pre' h1 htail hnohelp' ?_
          obtain ⟨o, ho, tok, h2, h3, value, h4⟩ := hbad
          rcases List.mem_cons.mp ho with rfl | ho'
          · exact absurd (hacc tok h2 h3 value) h4
          · exact ⟨o, ho', tok, h2, h3, value, h4⟩
        rcases main_switch_cases L opt optarg v trace (getopt_long_shape p d _ d' hg) with
          ⟨s, ho, ha, hs⟩ | ⟨s, ho, ha, hs⟩ | ⟨ho, hs⟩ | ⟨ho, hs⟩ | ⟨ho, hs⟩
        · rw [hs]
          dsimp only
          rcases parse_int_status L s v.register_number with hok | hbad'
          · rw [if_neg (not_not.mpr hok)]
            refine later _ hok (fun tok ht _ value => ?_)
            rw [ha] at ht
            simp only [Option.some.injEq] at ht
            subst ht
            exact parse_int_status_any_value L s _ value hok
          · rw [hbad']
            simp [HACKRF_ERROR_INVALID_PARAM, HACKRF_SUCCESS]
        · rw [hs]
          dsimp only
          rcases parse_int_status L s v.register_value with hok | hbad'
          · rw [if_neg (not_not.mpr hok)]
            refine later _ hok (fun tok ht _ value => ?_)
            rw [ha] at ht
            simp only [Option.some.injEq] at ht
            subst ht
            exact parse_int_status_any_value L s _ value hok
          · rw [hbad']
            simp [HACKRF_ERROR_INVALID_PARAM, HACKRF_SUCCESS]
        · rw [hs]
          dsimp only
          rw [if_neg (not_not.mpr hv)]
          refine later _ hv (fun tok _ hnw => ?_)
          subst ho
          rcases hnw with h | h <;> exact absurd h (by decide)
        · rw [hs]
          dsimp only
          rw [if_neg (not_not.mpr hv)]
          refine later _ hv (fun tok _ hnw => ?_)
          subst ho
          rcases hnw with h | h <;> exact absurd h (by decide)
        · rcases ho with h | h
          · exact absurd h hhead.1
          · exact absurd h hhead.2

/-- Claim C7, as the code has it: when the library initialises and
`getopt_long` finds a help option (`-h`, `-?`, `--help`) in the arguments,
`main` prints the usage text and makes no device call; it returns status 0
when `parse_int` accepts the argument of every `-n` and `-w` option that
comes before the help option, whatever the other options are. The only
other outcome is the failure status after the argument error line, and
`main` does return it when `parse_int` rejects the argument of a `-n` or
`-w` option that comes before the first help option. -/
theorem help_exits_success (L : Nat) (p : Bool) (lib : Driver) (argv : List (List Char))
    (pre post : List (Char × Option (List Char))) (e : Char × Option (List Char))
    (hinit : lib.hackrf_init = 0) (hsplit : options_of p argv = pre ++ e :: post)
    (hhelp : e.1 = 'h' ∨ e.1 = '?') :
    (main L p lib argv = .exit EXIT_SUCCESS ([.hackrf_init] ++ usage) ∨
        main L p lib argv = .exit EXIT_FAILURE
          ([.hackrf_init] ++
            [.stdout ("argument error: " ++ fmt_error lib HACKRF_ERROR_INVALID_PARAM)] ++ usage)) ∧
      (∀ ev ∈ (main L p lib argv).events, is_device_call ev = false) ∧
      ((∀ o ∈ pre, ∀ tok, o.2 = some tok → (o.1 = 'n' ∨ o.1 = 'w') →
          ∀ value, (parse_int L tok value).1 = HACKRF_SUCCESS) →
        main L p lib argv = .exit EXIT_SUCCESS ([.hackrf_init] ++ usage)) ∧
      ((∀ o ∈ pre, o.1 ≠ 'h' ∧ o.1 ≠ '?') →
        (∃ o ∈ pre, ∃ tok, o.2 = some tok ∧ (o.1 = 'n' ∨ o.1 = 'w') ∧
          ∃ value, (parse_int L tok value).1 ≠ HACKRF_SUCCESS) →
        main L p lib argv = .exit EXIT_FAILURE
          ([.hackrf_init] ++
            [.stdout ("argument error: " ++ fmt_error lib HACKRF_ERROR_INVALID_PARAM)] ++
            usage)) := by
  have hloop := main_loop_help L p lib _ (main_scan argv) (main_vars lib.hackrf_init)
    [.hackrf_init] pre post e (by rw [hinit]; rfl) hsplit hhelp
  have hmain : ∀ o, parse_options L p lib argv = .stop o → main L p lib argv = o := by
    intro o ho
    unfold main
    simp only [hinit, ho]
    rfl
  obtain ⟨h1, h2⟩ := hloop
  have hcases : main L p lib argv = .exit EXIT_SUCCESS ([.hackrf_init] ++ usage) ∨
      main L p lib argv = .exit EXIT_FAILURE
        ([.hackrf_init] ++
          [.stdout ("argument error: " ++ fmt_error lib HACKRF_ERROR_INVALID_PARAM)] ++ usage) := by
    rcases h1 with h | h
    · exact Or.inl (hmain _ h)
    · exact Or.inr (hmain _ h)
  refine ⟨hcases, ?_, fun hall => hmain _ (h2 hall), fun hnohelp hbad => ?_⟩
  · intro ev hev
    rcases hcases with h | h <;> rw [h] at hev <;>
      simp only [Outcome.events, List.mem_append, List.mem_singleton] at hev
    · rcases hev with rfl | hev
      · rfl
      · exact usage_prints ev hev
    · rcases hev with (rfl | rfl) | hev
      · rfl
      · rfl
      · exact usage_prints ev hev
  · exact hmain _ (main_loop_rejected L p lib _ (main_scan argv) (main_vars lib.hackrf_init)
      [.hackrf_init] pre (e :: post) (by rw [hinit]; rfl) hsplit hnohelp hbad)

/-- Witness of `help_exits_success`: `-r -w 3 --help` ends in success, and
`-n zz -h`, where the argument before the first help option is rejected, in
failure. -/
theorem help_exits_success_witness :
    ((main (2 ^ 63 - 1) false demo (cmd ["hackrf_rffc5071", "-r", "-w", "3", "--help"]) =
          .exit EXIT_SUCCESS ([.hackrf_init] ++ usage) ∨
        main (2 ^ 63 - 1) false demo (cmd ["hackrf_rffc5071", "-r", "-w", "3", "--help"]) =
          .exit EXIT_FAILURE
            ([.hackrf_init] ++
              [.stdout ("argument error: " ++ fmt_error demo HACKRF_ERROR_INVALID_PARAM)] ++
              usage)) ∧
      (∀ ev ∈ (main (2 ^ 63 - 1) false demo
          (cmd ["hackrf_rffc5071", "-r", "-w", "3", "--help"])).events,
        is_device_call ev = false) ∧
      ((∀ o ∈ [('r', none), ('w', some ['3'])], ∀ tok, o.2 = some tok → (o.1 = 'n' ∨ o.1 = 'w') →
          ∀ value, (parse_int (2 ^ 63 - 1) tok value).1 = HACKRF_SUCCESS) →
        main (2 ^ 63 - 1) false demo (cmd ["hackrf_rffc5071", "-r", "-w", "3", "--help"]) =
          .exit EXIT_SUCCESS ([.hackrf_init] ++ usage)) ∧
      ((∀ o ∈ [('r', none), ('w', some ['3'])], o.1 ≠ 'h' ∧ o.1 ≠ '?') →
        (∃ o ∈ [('r', none), ('w', some ['3'])], ∃ tok, o.2 = some tok ∧
          (o.1 = 'n' ∨ o.1 = 'w') ∧
          ∃ value, (parse_int (2 ^ 63 - 1) tok value).1 ≠ HACKRF_SUCCESS) →
        main (2 ^ 63 - 1) false demo (cmd ["hackrf_rffc5071", "-r", "-w", "3", "--help"]) =
          .exit EXIT_FAILURE
            ([.hackrf_init] ++
              [.stdout ("argument error: " ++ fmt_error demo HACKRF_ERROR_INVALID_PARAM)] ++
              usage))) ∧
      main (2 ^ 63 - 1) false demo (cmd ["hackrf_rffc5071", "-n", "zz", "-h"]) =
        .exit EXIT_FAILURE
          ([.hackrf_init] ++
            [.stdout ("argument error: " ++ fmt_error demo HACKRF_ERROR_INVALID_PARAM)] ++
            usage) :=
  ⟨help_exits_success (2 ^ 63 - 1) false demo
      (cmd ["hackrf_rffc5071", "-r", "-w", "3", "--help"])
      [('r', none), ('w', some ['3'])] [] ('h', none) (by decide) (by decide) (by decide),
    (help_exits_success (2 ^ 63 - 1) false demo (cmd ["hackrf_rffc5071", "-n", "zz", "-h"])
      [('n', some ['z', 'z'])] [] ('h', none) (by decide) (by decide) (by decide)).2.2.2
      (by decide)
      ⟨('n', some ['z', 'z']), List.mem_cons_self _ _, ['z', 'z'], rfl, Or.inl rfl, 0,
        by decide⟩⟩

/-- Claim C7 fails as stated: in `-n zz -h` the help option is present, but
the argument of `-n` is rejected first and `main` returns the failure status. -/
theorem help_after_bad_argument :
    ('h', none) ∈ options_of false (cmd ["hackrf_rffc5071", "-n", "zz", "-h"]) ∧
      main (2 ^ 63 - 1) false demo (cmd ["hackrf_rffc5071", "-n", "zz", "-h"]) =
        .exit EXIT_FAILURE
          ([.hackrf_init, .stdout "argument error: HACKRF_ERROR (-2)\n"] ++ usage) := by
  decide

/-- Claim C8 at the failing inputs: an option that `getopt_long` does not
know (`-z`, `--bogus`), and an option without its argument (`-n`), make
`main` print the usage text and return `EXIT_SUCCESS`: `getopt_long` answers
`?` for them, which the `switch` handles as the help option. The `default`
label with its failure status is not reached. -/
theorem unknown_option_exits_success :
    main (2 ^ 63 - 1) false demo (cmd ["hackrf_rffc5071", "-z"]) =
        .exit EXIT_SUCCESS ([.hackrf_init] ++ usage) ∧
      main (2 ^ 63 - 1) false demo (cmd ["hackrf_rffc5071", "--bogus"]) =
        .exit EXIT_SUCCESS ([.hackrf_init] ++ usage) ∧
      main (2 ^ 63 - 1) false demo (cmd ["hackrf_rffc5071", "-n"]) =
        .exit EXIT_SUCCESS ([.hackrf_init] ++ usage) := by
  decide

/-- Claim C9 at the failing input: `--device ABC -r -n 5` opens the device
with the null serial number, where `-d ABC -r -n 5` opens it with `ABC`: the
table of long options gives `--device` no argument, so `optarg` is null and
`ABC` is passed over as a word that is not an option. `--device=ABC` is
refused by `getopt_long` and ends in the usage text. -/
theorem long_device_ignores_serial :
    main (2 ^ 63 - 1) false demo (cmd ["hackrf_rffc5071", "--device", "ABC", "-r", "-n", "5"]) =
        .exit EXIT_SUCCESS [.hackrf_init, .hackrf_open_by_serial none, .hackrf_rffc5071_read 5,
          .stdout "[ 5] -> 0x105\n", .hackrf_close, .hackrf_exit] ∧
      main (2 ^ 63 - 1) false demo (cmd ["hackrf_rffc5071", "-d", "ABC", "-r", "-n", "5"]) =
        .exit EXIT_SUCCESS [.hackrf_init, .hackrf_open_by_serial (some "ABC".toList),
          .hackrf_rffc5071_read 5, .stdout "[ 5] -> 0x105\n", .hackrf_close, .hackrf_exit] ∧
      main (2 ^ 63 - 1) false demo (cmd ["hackrf_rffc5071", "--device=ABC", "-r", "-n", "5"]) =
        .exit EXIT_SUCCESS ([.hackrf_init] ++ usage) := by
  decide

/-! ## Termination -/

/-- The function `main` returns for every command line and driver: the bound
of the model on the number of `getopt_long` calls is never reached, and no
null `optarg` reaches `parse_int`. -/
theorem main_returns (L : Nat) (p : Bool) (lib : Driver) (argv : List (List Char)) :
    ∃ status trace, main L p lib argv = .exit status trace := by
  unfold main
  dsimp only
  split
  · exact ⟨_, _, rfl⟩
  · rename_i hinit
    have hinit' : lib.hackrf_init = 0 := not_not.mp hinit
    rcases main_loop_outcome L p lib (scan_size (main_scan argv) + 1) (main_scan argv)
        (main_vars lib.hackrf_init) [.hackrf_init] (Nat.lt_succ_self _)
        (by rw [hinit']; rfl) with ⟨v, hv, -⟩ | h | h
    · unfold parse_options
      rw [hv]
      dsimp only
      rcases hr : v.read with _ | _ <;> rcases hw : v.write with _ | _
      · unfold main_after_options
        simp [hr, hw]
      · by_cases hopen : lib.hackrf_open_by_serial v.serial_number = 0
        · rw [main_after_options_write lib v hw hr hopen]
          unfold write_outcome close_outcome
          split_ifs <;> exact ⟨_, _, rfl⟩
        · unfold main_after_options
          simp [hr, hw, hopen]
      · by_cases hopen : lib.hackrf_open_by_serial v.serial_number = 0
        · by_cases hn : v.register_number = REGISTER_INVALID
          · rw [main_after_options_dump lib v hw hr hn hopen]
            unfold dump_outcome close_outcome
            split_ifs <;> exact ⟨_, _, rfl⟩
          · rw [main_after_options_read lib v hw hr hn hopen]
            unfold read_outcome close_outcome
            split_ifs <;> exact ⟨_, _, rfl⟩
        · unfold main_after_options
          simp [hr, hw, hopen]
      · unfold main_after_options
        simp [hr, hw]
    · unfold parse_options
      rw [h]
      exact ⟨_, _, rfl⟩
    · unfold parse_options
      rw [h]
      exact ⟨_, _, rfl⟩

end Rffc5071
